import Mathlib

/-!
# Planning.cpp: a weekly study planner driven by simulated annealing

Shallow embedding of `src/Planning.cpp`.

Modelling conventions.
* The engine is embedded three times. The exact engine takes `float` and `double`
  values as elements of a linearly ordered field `α` with exact operations
  (concrete evaluations use `ℚ`, analytic statements use `ℝ`); a division by zero
  there follows the field convention `x / 0 = 0`. The checked engine (suffix `C`)
  returns `none` on a zero divisor or an index out of bounds. The rounded
  functions (suffix `F`) round the result of every floating-point operation to
  IEEE 754 binary32 or binary64.
* Claims that rest on order, sign or structure alone are proved on the exact
  engine. Where an exact identity or bound does not survive rounding, the statement
  proved on the exact engine is worded "in exact arithmetic" and the failure of the
  unqualified claim is proved on the rounded functions.
* A `std::vector<float>` is a `List α`, a `std::vector<std::vector<float>>` a
  `List (List α)`. A read outside the bounds yields `0` and a write outside the
  bounds does nothing (the program never makes one on a `numTask × numDays` plan).
* `for (int i = 0; i < n; i++)` loops are `forLoop n body`.
* The C library is a parameter: `rand()` is a stream of draws indexed by the
  number of calls made so far, `RAND_MAX` a natural number, `std::exp` a
  function on `α`.
* Console output is not part of the state.
-/

namespace Planning

/-! ## Definitions -/

/-- Loop `for (int i = 0; i < n; i++) s = body i s`, started in state `s`. -/
def forLoop {σ : Type} : Nat → (Nat → σ → σ) → σ → σ
  | 0, _, s => s
  | n + 1, body, s => body n (forLoop n body s)

/-- Global `int numDays = 7;` (never assigned afterwards). -/
def numDays : Nat := 7

/-- A `std::vector<std::vector<float>>`: the list of its rows. -/
abbrev Grid (α : Type) : Type := List (List α)

/-- Read `plan[i][j]`. -/
def cell {α : Type} [Zero α] (plan : Grid α) (i j : Nat) : α :=
  (plan.getD i []).getD j 0

/-- Assignment `plan[i][j] = v`. -/
def setCell {α : Type} (plan : Grid α) (i j : Nat) (v : α) : Grid α :=
  plan.set i ((plan.getD i []).set j v)

/-- Function `activation(k1, k2, t1, t)`, lines 111-119, in exact arithmetic: `k1`
is the weight, `k2` the minimum session time, `t1` the plateau, `t` the hours. For
`t1 = 0` the quotients are `0` by the field convention; `activationC` is the version
that fails there, `activationF` the version in `float` arithmetic. -/
def activation {α : Type} [LinearOrderedField α] (k1 k2 t1 t : α) : α :=
  if t < k2 then 0
  else if t < t1 then k1 / t1 * t
  else k1 + (t - t1) * k1 / t1 / 10

/-- Function `getPlanEvaluation`, lines 124-141. The outer loop state is
`(score, task_scor)`, the inner loop state `(score, task_sum)`; `exp` is `std::exp`. -/
def getPlanEvaluation {α : Type} [LinearOrderedField α] (exp : α → α)
    (evaluationMatrix plan : Grid α) (numTask : Nat) : α :=
  let final := forLoop numTask (fun taskIndex (acc : α × α) =>
    let inner := forLoop numDays (fun dayIndex (st : α × α) =>
      (st.1 + activation (cell evaluationMatrix taskIndex 0) (cell evaluationMatrix taskIndex 1)
          (cell evaluationMatrix taskIndex 2) (cell plan taskIndex dayIndex),
        st.2 + cell plan taskIndex dayIndex * cell evaluationMatrix taskIndex 0)) (acc.1, 0)
    (inner.1, acc.2 + 1 / (1 + exp (-inner.2)) / (numTask : α))) (0, 1)
  final.1 * final.2

/-- Globals of the program and the C library it calls: `numTask`, `dailyTimeLimit`,
`RAND_MAX`, the stream of values returned by successive `rand()` calls, `std::exp`. -/
structure Globals (α : Type) where
  numTask : Nat
  dailyTimeLimit : List α
  RAND_MAX : Nat
  rand : Nat → Nat
  exp : α → α

/-- Loop of lines 236-239: `totalTime` of day `dayIndex` over the `numTask` subjects. -/
def dayTotal {α : Type} [LinearOrderedField α] (numTask : Nat) (plan : Grid α)
    (dayIndex : Nat) : α :=
  forLoop numTask (fun i totalTime => totalTime + cell plan i dayIndex) 0

/-- Loop of lines 244-246 (and 213-215): `plan[i][dayIndex] *= scale` for every subject. -/
def scaleDay {α : Type} [LinearOrderedField α] (numTask : Nat) (plan : Grid α)
    (dayIndex : Nat) (scale : α) : Grid α :=
  forLoop numTask (fun i p => setCell p i dayIndex (cell p i dayIndex * scale)) plan

/-- Day repair inlined in `simulatedAnnealing`, lines 235-247: when the day total
exceeds the day limit, every cell of the day is multiplied by `limit / total`. -/
def repairDay {α : Type} [LinearOrderedField α] (numTask : Nat) (dailyTimeLimit : List α)
    (plan : Grid α) (dayIndex : Nat) : Grid α :=
  let totalTime := dayTotal numTask plan dayIndex
  if totalTime > dailyTimeLimit.getD dayIndex 0 then
    scaleDay numTask plan dayIndex (dailyTimeLimit.getD dayIndex 0 / totalTime)
  else plan

/-- State of the initialization loops: the plan, the number of `rand()` calls made,
and the running `totalTime` of the day being filled. -/
structure FillState (α : Type) where
  plan : Grid α
  calls : Nat
  totalTime : α

/-- Lines 206-207, body of the inner initialization loop: draw `currentPlan[i][j]`
and add it to `totalTime`. -/
def fillStep {α : Type} [LinearOrderedField α] (g : Globals α) (j i : Nat)
    (s : FillState α) : FillState α :=
  let drawn := setCell s.plan i j ((g.rand s.calls : α) / (g.RAND_MAX : α))
  FillState.mk drawn (s.calls + 1) (s.totalTime + cell drawn i j)

/-- Inner loop of lines 204-208 for day `j`, with `totalTime` started at `0`. -/
def fillDay {α : Type} [LinearOrderedField α] (g : Globals α) (j : Nat)
    (st : Grid α × Nat) : FillState α :=
  forLoop g.numTask (fillStep g j) (FillState.mk st.1 st.2 0)

/-- Body of the loop over days at initialization, lines 203-217, for day `j`. -/
def initDay {α : Type} [LinearOrderedField α] (g : Globals α) (j : Nat)
    (st : Grid α × Nat) : Grid α × Nat :=
  let filled := fillDay g j st
  if filled.totalTime > g.dailyTimeLimit.getD j 0 then
    (scaleDay g.numTask filled.plan j (g.dailyTimeLimit.getD j 0 / filled.totalTime),
      filled.calls)
  else (filled.plan, filled.calls)

/-- Lines 200-217: the zero-initialised `numTask × numDays` plan, filled with random
draws and repaired day by day; returns the plan and the number of `rand()` calls. -/
def initPlan {α : Type} [LinearOrderedField α] (g : Globals α) : Grid α × Nat :=
  forLoop numDays (initDay g) (List.replicate g.numTask (List.replicate numDays 0), 0)

/-- Local variables of `simulatedAnnealing` that live across iterations, with the
number of `rand()` calls made so far. -/
structure SAState (α : Type) where
  currentPlan : Grid α
  currentScore : α
  bestPlan : Grid α
  bestScore : α
  temperature : α
  calls : Nat

/-- Lines 199-222: state of `simulatedAnnealing` on entering the iteration loop. -/
def saInit {α : Type} [LinearOrderedField α] (g : Globals α) (evaluationMatrix : Grid α)
    (initialTemp : α) : SAState α :=
  let drawn := initPlan g
  let currentScore := getPlanEvaluation g.exp evaluationMatrix drawn.1 g.numTask
  SAState.mk drawn.1 currentScore drawn.1 currentScore initialTemp drawn.2

/-- Lines 225-233: the current plan with one cell perturbed and clamped at `0`. -/
def perturbed {α : Type} [LinearOrderedField α] (g : Globals α) (s : SAState α) : Grid α :=
  let taskIndex := g.rand s.calls % g.numTask
  let dayIndex := g.rand (s.calls + 1) % numDays
  let bumped := setCell s.currentPlan taskIndex dayIndex
    (cell s.currentPlan taskIndex dayIndex
      + ((g.rand (s.calls + 2) : α) / (g.RAND_MAX : α) - 1 / 2) * (3 / 10))
  if cell bumped taskIndex dayIndex < 0 then setCell bumped taskIndex dayIndex 0 else bumped

/-- Lines 225-247: the candidate `newPlan` of one iteration: the perturbed plan with
the chosen day repaired. -/
def candidate {α : Type} [LinearOrderedField α] (g : Globals α) (s : SAState α) : Grid α :=
  repairDay g.numTask g.dailyTimeLimit (perturbed g s) (g.rand (s.calls + 1) % numDays)

/-- Acceptance test of line 252, `scoreDiff > 0 || exp(scoreDiff / temperature) > u`,
where `u` is the uniform draw `rand() / RAND_MAX`. -/
def accepts {α : Type} [LinearOrderedField α] (exp : α → α) (scoreDiff temperature u : α) :
    Bool :=
  decide (scoreDiff > 0 ∨ exp (scoreDiff / temperature) > u)

/-- Body of the iteration loop, lines 225-262 (the progress line is not modelled).
The fourth `rand()` call is made only when `scoreDiff > 0` fails. -/
def saStep {α : Type} [LinearOrderedField α] (g : Globals α) (evaluationMatrix : Grid α)
    (coolingRate : α) (s : SAState α) : SAState α :=
  let newPlan := candidate g s
  let newScore := getPlanEvaluation g.exp evaluationMatrix newPlan g.numTask
  let scoreDiff := newScore - s.currentScore
  let calls := if scoreDiff > 0 then s.calls + 3 else s.calls + 4
  if accepts g.exp scoreDiff s.temperature ((g.rand (s.calls + 3) : α) / (g.RAND_MAX : α)) then
    if newScore > s.bestScore then
      SAState.mk newPlan newScore newPlan newScore (s.temperature * coolingRate) calls
    else
      SAState.mk newPlan newScore s.bestPlan s.bestScore (s.temperature * coolingRate) calls
  else
    SAState.mk s.currentPlan s.currentScore s.bestPlan s.bestScore
      (s.temperature * coolingRate) calls

/-- State of `simulatedAnnealing` after `iterations` passes through the loop. -/
def saRun {α : Type} [LinearOrderedField α] (g : Globals α) (evaluationMatrix : Grid α)
    (initialTemp coolingRate : α) (iterations : Nat) : SAState α :=
  forLoop iterations (fun _ s => saStep g evaluationMatrix coolingRate s)
    (saInit g evaluationMatrix initialTemp)

/-- Function `simulatedAnnealing`, lines 193-271: returns `bestPlan` after
`maxIterations` iterations (none when `maxIterations ≤ 0`). -/
def simulatedAnnealing {α : Type} [LinearOrderedField α] (g : Globals α)
    (evaluationMatrix : Grid α) (maxIterations : Int) (initialTemp coolingRate : α) : Grid α :=
  (saRun g evaluationMatrix initialTemp coolingRate maxIterations.toNat).bestPlan

/-- Function `loadMatrix`, lines 65-82. `file` is `none` when the stream cannot be
opened (the function returns at line 69 and leaves both vectors as they were),
otherwise the records `weight minTime plateau name` parsed until the end of the
stream. Returns `matrix` and `taskNames`. -/
def loadMatrix {α : Type} (matrix : Grid α) (taskNames : List String)
    (file : Option (List (α × α × α × String))) : Grid α × List String :=
  match file with
  | none => (matrix, taskNames)
  | some records =>
    (records.map (fun r => [r.1, r.2.1, r.2.2.1]), records.map (fun r => r.2.2.2))

/-- Loop of lines 101-103, `while (dailyTimeLimit.size() < numDays)
dailyTimeLimit.push_back(dailyTimeLimit.back());`. The result is `none` when the
loop calls `back()` on an empty vector, which has no defined behaviour. -/
def padTimeLimit {α : Type} (dailyTimeLimit : List α) : Option (List α) :=
  if dailyTimeLimit.length < numDays then
    match dailyTimeLimit.getLast? with
    | none => none
    | some last => padTimeLimit (dailyTimeLimit ++ [last])
  else some dailyTimeLimit
termination_by numDays - dailyTimeLimit.length
decreasing_by
  simp only [List.length_append, List.length_singleton]
  omega

/-- Function `loadTimeLimit`, lines 87-106. `file` is `none` when the stream cannot
be opened (the function returns at line 91 and leaves `dailyTimeLimit` as it was),
otherwise the values parsed until the end of the stream. -/
def loadTimeLimit {α : Type} (dailyTimeLimit : List α) (file : Option (List α)) :
    Option (List α) :=
  match file with
  | none => some dailyTimeLimit
  | some values => padTimeLimit values

/-- How `main` ends: `return 1` after one of the two error messages of lines
285-293, or `return 0` after the optimization, with the optimized plan. -/
inductive MainResult (α : Type) where
  | noTasks : MainResult α
  | noTimeLimits : MainResult α
  | optimized : Grid α → MainResult α

/-- Exit status of `main`. -/
def MainResult.status {α : Type} : MainResult α → Nat
  | MainResult.noTasks => 1
  | MainResult.noTimeLimits => 1
  | MainResult.optimized _ => 0

/-- Function `main`, lines 273-325, up to its console output. `evaluationMatrix`
and the global `dailyTimeLimit` start empty; both loaders run before the two
emptiness checks. The result is `none` when `loadTimeLimit` has no defined
behaviour. -/
def main {α : Type} [LinearOrderedField α] (RAND_MAX : Nat) (rand : Nat → Nat)
    (exp : α → α) (matrixFile : Option (List (α × α × α × String)))
    (timeFile : Option (List α)) : Option (MainResult α) :=
  let evaluationMatrix := (loadMatrix [] [] matrixFile).1
  match loadTimeLimit [] timeFile with
  | none => none
  | some dailyTimeLimit =>
    if evaluationMatrix.isEmpty then some MainResult.noTasks
    else if dailyTimeLimit.isEmpty then some MainResult.noTimeLimits
    else
      some (MainResult.optimized
        (simulatedAnnealing
          (Globals.mk evaluationMatrix.length dailyTimeLimit RAND_MAX rand exp)
          evaluationMatrix 10000000 1000 (999998 / 1000000)))

/-- Score `newScore` of the candidate evaluated by the iteration that starts in
state `s` (line 249). -/
def candidateScore {α : Type} [LinearOrderedField α] (g : Globals α)
    (evaluationMatrix : Grid α) (s : SAState α) : α :=
  getPlanEvaluation g.exp evaluationMatrix (candidate g s) g.numTask

/-- Maximum of the initial score and of the scores of all the candidates evaluated
during the first `k` iterations, accepted or not. -/
def bestSoFar {α : Type} [LinearOrderedField α] (g : Globals α) (evaluationMatrix : Grid α)
    (initialTemp coolingRate : α) : Nat → α
  | 0 => (saInit g evaluationMatrix initialTemp).currentScore
  | k + 1 => max (bestSoFar g evaluationMatrix initialTemp coolingRate k)
      (candidateScore g evaluationMatrix (saRun g evaluationMatrix initialTemp coolingRate k))

/-- Day index drawn by the iteration that starts in state `s` (line 227). -/
def chosenDay {α : Type} (g : Globals α) (s : SAState α) : Nat :=
  g.rand (s.calls + 1) % numDays

/-- Whether the iteration that starts in state `s` accepts its candidate (line 252). -/
def stepAccepts {α : Type} [LinearOrderedField α] (g : Globals α) (evaluationMatrix : Grid α)
    (s : SAState α) : Bool :=
  accepts g.exp (candidateScore g evaluationMatrix s - s.currentScore) s.temperature
    ((g.rand (s.calls + 3) : α) / (g.RAND_MAX : α))

/-- Subject table of the end-to-end examples of the spec: one subject with weight
1.5, minimum time 0.5 and plateau 1.5. -/
def exampleMatrix : Grid ℚ := [[3 / 2, 1 / 2, 3 / 2]]

/-- Run environment of the first end-to-end example: one subject, all day budgets
`2.0`, `RAND_MAX = 32767`, a linear congruential stream of draws. -/
def exampleGlobals : Globals ℚ :=
  Globals.mk 1 [2, 2, 2, 2, 2, 2, 2] 32767 (fun n => (n * 7919 + 12345) % 32768)
    (fun x => if x < 0 then 1 / (1 - x) else 1 + x)

/-- Every cell of day `d` of the plan is non-negative. -/
def DayNonneg {α : Type} [LinearOrderedField α] (d : Nat) (plan : Grid α) : Prop :=
  ∀ i, 0 ≤ cell plan i d

/-- Every cell of the plan is non-negative. -/
def NonNegative {α : Type} [LinearOrderedField α] (plan : Grid α) : Prop :=
  ∀ i j, 0 ≤ cell plan i j

/-- Expression `static_cast<float>(rand()) / RAND_MAX` of lines 206, 230 and 252, for
a value `r` returned by `rand()`. -/
def uniformVariate {α : Type} [LinearOrderedField α] (RAND_MAX r : Nat) : α :=
  (r : α) / (RAND_MAX : α)

/-- Subject table of the second end-to-end example of the spec: one subject with
weight 1.0, minimum time 0 and plateau 1.0. -/
def unitMatrix : Grid ℚ := [[1, 0, 1]]

/-! ### The engine with every division and every index checked

The functions below repeat the engine above statement by statement, with every
division, every `%` and every `operator[]` replaced by a checked operation: the
result is `none` as soon as a divisor is zero or an index is out of bounds. -/

/-- Division `a / b`, `none` when the divisor is zero. -/
def divC {α : Type} [LinearOrderedField α] (a b : α) : Option α :=
  if b = 0 then none else some (a / b)

/-- Integer remainder `a % n`, `none` when the divisor is zero. -/
def modC (a n : Nat) : Option Nat :=
  if n = 0 then none else some (a % n)

/-- Read `plan[i][j]`, `none` when `i` or `j` is out of bounds. -/
def cellC {α : Type} (plan : Grid α) (i j : Nat) : Option α :=
  (plan[i]?).bind (fun row => row[j]?)

/-- Assignment `plan[i][j] = v`, `none` when `i` or `j` is out of bounds. -/
def setCellC {α : Type} (plan : Grid α) (i j : Nat) (v : α) : Option (Grid α) :=
  (plan[i]?).bind (fun row => if j < row.length then some (plan.set i (row.set j v)) else none)

/-- Loop `for (int i = 0; i < n; i++)` whose body may fail. -/
def forLoopC {σ : Type} : Nat → (Nat → σ → Option σ) → σ → Option σ
  | 0, _, s => some s
  | n + 1, body, s => (forLoopC n body s).bind (body n)

/-- Function `activation` with its divisions checked. -/
def activationC {α : Type} [LinearOrderedField α] (k1 k2 t1 t : α) : Option α :=
  if t < k2 then some 0
  else if t < t1 then (divC k1 t1).bind (fun q => some (q * t))
  else
    (divC ((t - t1) * k1) t1).bind (fun q =>
      (divC q 10).bind (fun tenth => some (k1 + tenth)))

/-- Function `getPlanEvaluation` with its divisions and indices checked. -/
def getPlanEvaluationC {α : Type} [LinearOrderedField α] (exp : α → α)
    (evaluationMatrix plan : Grid α) (numTask : Nat) : Option α :=
  (forLoopC numTask (fun taskIndex (acc : α × α) =>
    (forLoopC numDays (fun dayIndex (st : α × α) =>
      (cellC evaluationMatrix taskIndex 0).bind (fun k1 =>
      (cellC evaluationMatrix taskIndex 1).bind (fun k2 =>
      (cellC evaluationMatrix taskIndex 2).bind (fun t1 =>
      (cellC plan taskIndex dayIndex).bind (fun t =>
      (activationC k1 k2 t1 t).bind (fun a =>
        some (st.1 + a, st.2 + t * k1))))))) (acc.1, 0)).bind (fun inner =>
    (divC 1 (1 + exp (-inner.2))).bind (fun sig =>
    (divC sig (numTask : α)).bind (fun term =>
      some (inner.1, acc.2 + term))))) (0, 1)).bind (fun final =>
  some (final.1 * final.2))

/-- Loop of lines 236-239 with its indices checked. -/
def dayTotalC {α : Type} [LinearOrderedField α] (numTask : Nat) (plan : Grid α)
    (dayIndex : Nat) : Option α :=
  forLoopC numTask (fun i totalTime =>
    (cellC plan i dayIndex).bind (fun c => some (totalTime + c))) 0

/-- Loop of lines 244-246 with its indices checked. -/
def scaleDayC {α : Type} [LinearOrderedField α] (numTask : Nat) (plan : Grid α)
    (dayIndex : Nat) (scale : α) : Option (Grid α) :=
  forLoopC numTask (fun i p =>
    (cellC p i dayIndex).bind (fun c => setCellC p i dayIndex (c * scale))) plan

/-- Day repair of lines 235-247 with its division and indices checked. -/
def repairDayC {α : Type} [LinearOrderedField α] (numTask : Nat) (dailyTimeLimit : List α)
    (plan : Grid α) (dayIndex : Nat) : Option (Grid α) :=
  (dayTotalC numTask plan dayIndex).bind (fun totalTime =>
  (dailyTimeLimit[dayIndex]?).bind (fun limit =>
    if totalTime > limit then
      (divC limit totalTime).bind (fun scale => scaleDayC numTask plan dayIndex scale)
    else some plan))

/-- Lines 206-207 with the division and the indices checked. -/
def fillStepC {α : Type} [LinearOrderedField α] (g : Globals α) (j i : Nat)
    (s : FillState α) : Option (FillState α) :=
  (divC (g.rand s.calls : α) (g.RAND_MAX : α)).bind (fun u =>
  (setCellC s.plan i j u).bind (fun drawn =>
  (cellC drawn i j).bind (fun c =>
    some (FillState.mk drawn (s.calls + 1) (s.totalTime + c)))))

/-- Lines 203-217 for day `j`, with divisions and indices checked. -/
def initDayC {α : Type} [LinearOrderedField α] (g : Globals α) (j : Nat)
    (st : Grid α × Nat) : Option (Grid α × Nat) :=
  (forLoopC g.numTask (fillStepC g j) (FillState.mk st.1 st.2 0)).bind (fun filled =>
  (g.dailyTimeLimit[j]?).bind (fun limit =>
    if filled.totalTime > limit then
      (divC limit filled.totalTime).bind (fun scale =>
      (scaleDayC g.numTask filled.plan j scale).bind (fun scaled =>
        some (scaled, filled.calls)))
    else some (filled.plan, filled.calls)))

/-- Lines 200-217 with divisions and indices checked. -/
def initPlanC {α : Type} [LinearOrderedField α] (g : Globals α) : Option (Grid α × Nat) :=
  forLoopC numDays (initDayC g) (List.replicate g.numTask (List.replicate numDays 0), 0)

/-- Lines 199-222 with divisions and indices checked. -/
def saInitC {α : Type} [LinearOrderedField α] (g : Globals α) (evaluationMatrix : Grid α)
    (initialTemp : α) : Option (SAState α) :=
  (initPlanC g).bind (fun drawn =>
  (getPlanEvaluationC g.exp evaluationMatrix drawn.1 g.numTask).bind (fun currentScore =>
    some (SAState.mk drawn.1 currentScore drawn.1 currentScore initialTemp drawn.2)))

/-- Lines 225-247 with divisions, remainders and indices checked. -/
def candidateC {α : Type} [LinearOrderedField α] (g : Globals α) (s : SAState α) :
    Option (Grid α) :=
  (modC (g.rand s.calls) g.numTask).bind (fun taskIndex =>
  (modC (g.rand (s.calls + 1)) numDays).bind (fun dayIndex =>
  (divC (g.rand (s.calls + 2) : α) (g.RAND_MAX : α)).bind (fun u =>
  (cellC s.currentPlan taskIndex dayIndex).bind (fun old =>
  (setCellC s.currentPlan taskIndex dayIndex (old + (u - 1 / 2) * (3 / 10))).bind
    (fun bumped =>
  (cellC bumped taskIndex dayIndex).bind (fun v =>
  (if v < 0 then setCellC bumped taskIndex dayIndex 0 else some bumped).bind
    (fun clamped =>
  repairDayC g.numTask g.dailyTimeLimit clamped dayIndex)))))))

/-- Acceptance test of line 252 with its divisions checked; the right operand of
`||` is evaluated only when `scoreDiff > 0` fails. -/
def acceptsC {α : Type} [LinearOrderedField α] (g : Globals α) (s : SAState α)
    (scoreDiff : α) : Option Bool :=
  if scoreDiff > 0 then some true
  else
    (divC scoreDiff s.temperature).bind (fun q =>
    (divC (g.rand (s.calls + 3) : α) (g.RAND_MAX : α)).bind (fun u =>
      some (decide (g.exp q > u))))

/-- Body of the iteration loop, lines 225-262, with divisions, remainders and
indices checked. -/
def saStepC {α : Type} [LinearOrderedField α] (g : Globals α) (evaluationMatrix : Grid α)
    (coolingRate : α) (s : SAState α) : Option (SAState α) :=
  (candidateC g s).bind (fun newPlan =>
  (getPlanEvaluationC g.exp evaluationMatrix newPlan g.numTask).bind (fun newScore =>
  (acceptsC g s (newScore - s.currentScore)).bind (fun accepted =>
    let calls := if newScore - s.currentScore > 0 then s.calls + 3 else s.calls + 4
    if accepted then
      if newScore > s.bestScore then
        some (SAState.mk newPlan newScore newPlan newScore (s.temperature * coolingRate) calls)
      else
        some (SAState.mk newPlan newScore s.bestPlan s.bestScore
          (s.temperature * coolingRate) calls)
    else
      some (SAState.mk s.currentPlan s.currentScore s.bestPlan s.bestScore
        (s.temperature * coolingRate) calls))))

/-- State of the checked `simulatedAnnealing` after `iterations` passes, `none` if a
division by zero or an out-of-bounds access happened on the way. -/
def saRunC {α : Type} [LinearOrderedField α] (g : Globals α) (evaluationMatrix : Grid α)
    (initialTemp coolingRate : α) (iterations : Nat) : Option (SAState α) :=
  (saInitC g evaluationMatrix initialTemp).bind (fun s0 =>
    forLoopC iterations (fun _ s => saStepC g evaluationMatrix coolingRate s) s0)

/-- Input precondition on the subject table: `numTask` rows `weight minTime plateau`
with `weight > 0` and `0 ≤ minTime < plateau`. -/
def ValidTable {α : Type} [LinearOrderedField α] (numTask : Nat) (evaluationMatrix : Grid α) :
    Prop :=
  evaluationMatrix.length = numTask ∧
    ∀ row ∈ evaluationMatrix, ∃ weight minTime plateau : α,
      row = [weight, minTime, plateau] ∧ 0 < weight ∧ 0 ≤ minTime ∧ minTime < plateau

/-- Input precondition on the day budgets: at least `numDays` entries, the first
`numDays` non-negative. -/
def ValidLimits {α : Type} [LinearOrderedField α] (dailyTimeLimit : List α) : Prop :=
  ∀ d, d < numDays → ∃ limit : α, dailyTimeLimit[d]? = some limit ∧ 0 ≤ limit

/-! ### The same code in IEEE 754 arithmetic

The functions below repeat the arithmetic of the engine over `ℚ` with the result of
every floating-point operation rounded by `rnd` (`rnd32` for `float`, `rnd64` for
`double`): round to nearest, ties to even, one rounding per operation. With the
identity for `rnd` they are the exact functions above. Overflow to infinity is not
modelled (no value below comes near the largest finite number). -/

/-- Least width `w' = w, 2 w, 4 w, ...` with `n < 2 ^ w'`, found in at most `fuel`
doublings (`fuel = n` is always enough). -/
def findWidth : Nat → Nat → Nat → Nat
  | 0, w, _ => w
  | fuel + 1, w, n => if n < 2 ^ w then w else findWidth fuel (2 * w) n

/-- Binary search for the leading bit: from `2 ^ acc ≤ n < 2 ^ (acc + 2 * k)` with
`k` a power of two, the greatest `e` with `2 ^ e ≤ n`, in at most `fuel` halvings
of `k`. -/
def leadingBit : Nat → Nat → Nat → Nat → Nat
  | 0, _, acc, _ => acc
  | fuel + 1, k, acc, n =>
    if k = 0 then acc else leadingBit fuel (k / 2) (if 2 ^ (acc + k) ≤ n then acc + k else acc) n

/-- For `n ≥ 1`, the greatest `e` with `2 ^ e ≤ n`. -/
def log2Nat (n : Nat) : Nat :=
  leadingBit (findWidth n 1 n) (findWidth n 1 n / 2) 0 n

/-- Exponent of the leading bit of the positive rational `n / d`: the greatest `e`
with `2 ^ e ≤ n / d`. -/
def floorLog2 (n d : Nat) : Int :=
  let e0 : Int := (log2Nat n : Int) - (log2Nat d : Int)
  if (if 0 ≤ e0 then 2 ^ e0.toNat * d ≤ n else d ≤ n * 2 ^ (-e0).toNat) then e0 else e0 - 1

/-- Rounding of a rational to the nearest number of a binary floating-point format
with `prec` significand bits and least normal exponent `emin`, ties to even;
below `2 ^ emin` the spacing stays `2 ^ (emin - prec + 1)` (subnormal numbers). -/
def roundBinary (prec : Nat) (emin : Int) (q : ℚ) : ℚ :=
  if q = 0 then 0
  else
    let n := q.num.natAbs
    let d := q.den
    let s : Int := max (floorLog2 n d) emin - ((prec : Int) - 1)
    let N := if 0 ≤ s then n else n * 2 ^ (-s).toNat
    let D := if 0 ≤ s then d * 2 ^ s.toNat else d
    let f := N / D
    let r := N % D
    let k := if 2 * r < D then f else if D < 2 * r then f + 1 else if f % 2 = 0 then f else f + 1
    let v : ℚ := if 0 ≤ s then ((k * 2 ^ s.toNat : Nat) : ℚ) else mkRat k (2 ^ (-s).toNat)
    if q < 0 then -v else v

/-- Rounding to `float` (IEEE 754 binary32). -/
def binary32 (q : ℚ) : ℚ := roundBinary 24 (-126) q

/-- Rounding to `double` (IEEE 754 binary64). -/
def binary64 (q : ℚ) : ℚ := roundBinary 53 (-1022) q

/-- Expression `static_cast<float>(rand()) / RAND_MAX` in `float`: both integers are
converted to `float`, then divided. -/
def uniformVariateF (rnd : ℚ → ℚ) (RAND_MAX r : Nat) : ℚ :=
  rnd (rnd (r : ℚ) / rnd (RAND_MAX : ℚ))

/-- Function `activation` in `float` arithmetic. -/
def activationF (rnd : ℚ → ℚ) (k1 k2 t1 t : ℚ) : ℚ :=
  if t < k2 then 0
  else if t < t1 then rnd (rnd (k1 / t1) * t)
  else rnd (k1 + rnd (rnd (rnd (rnd (t - t1) * k1) / t1) / 10))

/-- Function `getPlanEvaluation` with its `float` operations rounded by `rnd32`
(`activation`, the product `plan[i][d] * weight`) and its `double` operations by
`rnd64`. -/
def getPlanEvaluationF (rnd32 rnd64 : ℚ → ℚ) (exp : ℚ → ℚ) (evaluationMatrix plan : Grid ℚ)
    (numTask : Nat) : ℚ :=
  let final := forLoop numTask (fun taskIndex (acc : ℚ × ℚ) =>
    let inner := forLoop numDays (fun dayIndex (st : ℚ × ℚ) =>
      (rnd64 (st.1 + activationF rnd32 (cell evaluationMatrix taskIndex 0)
          (cell evaluationMatrix taskIndex 1) (cell evaluationMatrix taskIndex 2)
          (cell plan taskIndex dayIndex)),
        rnd64 (st.2 + rnd32 (cell plan taskIndex dayIndex * cell evaluationMatrix taskIndex 0))))
      (acc.1, 0)
    (inner.1,
      rnd64 (acc.2 + rnd64 (rnd64 (1 / rnd64 (1 + exp (-inner.2))) / (numTask : ℚ))))) (0, 1)
  rnd64 (final.1 * final.2)

/-- Loop of lines 236-239 in `float` arithmetic. -/
def dayTotalF (rnd : ℚ → ℚ) (numTask : Nat) (plan : Grid ℚ) (dayIndex : Nat) : ℚ :=
  forLoop numTask (fun i totalTime => rnd (totalTime + cell plan i dayIndex)) 0

/-- Loop of lines 244-246 in `float` arithmetic. -/
def scaleDayF (rnd : ℚ → ℚ) (numTask : Nat) (plan : Grid ℚ) (dayIndex : Nat) (scale : ℚ) :
    Grid ℚ :=
  forLoop numTask (fun i p => setCell p i dayIndex (rnd (cell p i dayIndex * scale))) plan

/-- Day repair of lines 235-247 in `float` arithmetic. -/
def repairDayF (rnd : ℚ → ℚ) (numTask : Nat) (dailyTimeLimit : List ℚ) (plan : Grid ℚ)
    (dayIndex : Nat) : Grid ℚ :=
  let totalTime := dayTotalF rnd numTask plan dayIndex
  if totalTime > dailyTimeLimit.getD dayIndex 0 then
    scaleDayF rnd numTask plan dayIndex (rnd (dailyTimeLimit.getD dayIndex 0 / totalTime))
  else plan

/-- Lines 206-207 in `float` arithmetic. -/
def fillStepF (rnd : ℚ → ℚ) (g : Globals ℚ) (j i : Nat) (s : FillState ℚ) : FillState ℚ :=
  let drawn := setCell s.plan i j (uniformVariateF rnd g.RAND_MAX (g.rand s.calls))
  FillState.mk drawn (s.calls + 1) (rnd (s.totalTime + cell drawn i j))

/-- Lines 203-217 for day `j` in `float` arithmetic. -/
def initDayF (rnd : ℚ → ℚ) (g : Globals ℚ) (j : Nat) (st : Grid ℚ × Nat) : Grid ℚ × Nat :=
  let filled := forLoop g.numTask (fillStepF rnd g j) (FillState.mk st.1 st.2 0)
  if filled.totalTime > g.dailyTimeLimit.getD j 0 then
    (scaleDayF rnd g.numTask filled.plan j (rnd (g.dailyTimeLimit.getD j 0 / filled.totalTime)),
      filled.calls)
  else (filled.plan, filled.calls)

/-- Lines 200-217 in `float` arithmetic: the initial plan of `simulatedAnnealing`,
which is also the plan it returns when `maxIterations` is `0`. -/
def initPlanF (rnd : ℚ → ℚ) (g : Globals ℚ) : Grid ℚ × Nat :=
  forLoop numDays (initDayF rnd g) (List.replicate g.numTask (List.replicate numDays 0), 0)

/-- Lines 222 and 262 in `double` arithmetic: the temperature after `iterations`
passes, `temperature *= coolingRate` each. -/
def temperatureF (rnd : ℚ → ℚ) (initialTemp coolingRate : ℚ) (iterations : Nat) : ℚ :=
  forLoop iterations (fun _ temperature => rnd (temperature * coolingRate)) initialTemp

/-- Run environment for the rounding examples: three subjects, all day budgets `1`,
`RAND_MAX = 2147483647`, and a stream of draws whose first three values fill day 0
with the `float` cells 0.33522275, 0.7682296 and 0.27777472 (later draws are `0`). -/
def roundingGlobals : Globals ℚ :=
  Globals.mk 3 [1, 1, 1, 1, 1, 1, 1] 2147483647
    (fun n => if n = 0 then 719885376 else if n = 1 then 1649760512
      else if n = 2 then 596516672 else 0)
    (fun x => if x < 0 then 1 / (1 - x) else 1 + x)

/-- Plan of three subjects whose day 0 holds the `float` cells 0.33522275, 0.7682296
and 0.27777472, the other days being empty. -/
def roundingPlan : Grid ℚ :=
  [[11248209 / 33554432, 0, 0, 0, 0, 0, 0], [6444377 / 8388608, 0, 0, 0, 0, 0, 0],
    [9320573 / 33554432, 0, 0, 0, 0, 0, 0]]

/-- Plan of one subject with six hours on every day. -/
def sixHoursPlan : Grid ℚ := [[6, 6, 6, 6, 6, 6, 6]]

/-- The `double` nearest to `e^-42`, `0x1.536452ee2f75cp-61`: the value of
`std::exp(-42.0)`. -/
def expMinus42 : ℚ := 1492661319548375 / 2596148429267413814265248164610048

/-- Stand-in for `std::exp` on the one argument the rounding example passes to it:
`std::exp(-42.0)` is `expMinus42`. -/
def stdExpAt42 : ℚ → ℚ := fun x => if x = -42 then expMinus42 else 1

/-- Shape of a plan built by `std::vector<std::vector<float>>(numTask,
std::vector<float>(numDays))`: `numTask` rows of `numDays` cells. -/
def WellShaped {α : Type} (numTask : Nat) (plan : Grid α) : Prop :=
  plan.length = numTask ∧ ∀ row ∈ plan, row.length = numDays

/-- Budget feasibility of a plan: every day total is within the day limit. -/
def Feasible {α : Type} [LinearOrderedField α] (g : Globals α) (plan : Grid α) : Prop :=
  ∀ d, d < numDays → dayTotal g.numTask plan d ≤ g.dailyTimeLimit.getD d 0

/-- Spec §4.1, `sigmoid(x) = 1/(1+e^-x)`. -/
def sigmoid {α : Type} [LinearOrderedField α] (exp : α → α) (x : α) : α :=
  1 / (1 + exp (-x))

/-- Spec §4.1, `taskTotal_i`: the sum over the days of `allocation[i][d] * weight_i`. -/
def taskTotal {α : Type} [LinearOrderedField α] (evaluationMatrix plan : Grid α)
    (i : Nat) : α :=
  ∑ d in Finset.range numDays, cell plan i d * cell evaluationMatrix i 0

/-- Spec §4.1, the running total `score`: the sum of `activation` over all subjects
and all days. -/
def activationSum {α : Type} [LinearOrderedField α] (evaluationMatrix plan : Grid α)
    (numTask : Nat) : α :=
  ∑ i in Finset.range numTask, ∑ d in Finset.range numDays,
    activation (cell evaluationMatrix i 0) (cell evaluationMatrix i 1)
      (cell evaluationMatrix i 2) (cell plan i d)

/-- Spec §4.1, the balance multiplier `m = 1 + (1/numTasks) * Σ_i sigmoid(taskTotal_i)`. -/
def balanceMultiplier {α : Type} [LinearOrderedField α] (exp : α → α)
    (evaluationMatrix plan : Grid α) (numTask : Nat) : α :=
  1 + 1 / (numTask : α)
    * ∑ i in Finset.range numTask, sigmoid exp (taskTotal evaluationMatrix plan i)

/-- Sample plan: two subjects, seven days. -/
def samplePlan : Grid ℚ :=
  [[3 / 2, 1 / 4, 1, 0, 2, 1 / 2, 1], [1, 1 / 2, 1 / 2, 3, 0, 1 / 2, 1]]

/-- Sample subject table: the two rows of the header example of `matrix.txt`. -/
def sampleMatrix : Grid ℚ := [[3 / 2, 1 / 2, 3 / 2], [2, 1, 5 / 2]]

/-- Sample run environment: two subjects, two hours a day, `RAND_MAX = 32767`, a
linear congruential stream of draws, and a rational stand-in for `std::exp`. -/
def sampleGlobals : Globals ℚ :=
  Globals.mk 2 [2, 2, 2, 2, 2, 2, 2] 32767 (fun n => (n * 7919 + 12345) % 32768)
    (fun x => if x < 0 then 1 / (1 - x) else 1 + x)

/-! ## Theorems -/

/-! ### Loops, cells and day totals -/

theorem forLoop_succ {σ : Type} (n : Nat) (body : Nat → σ → σ) (s : σ) :
    forLoop (n + 1) body s = body n (forLoop n body s) := rfl

theorem getD_set_eq_ite {β : Type} (l : List β) (i j : Nat) (v d : β) :
    (l.set i v).getD j d = if j = i ∧ i < l.length then v else l.getD j d := by
  simp only [List.getD_eq_getElem?_getD, List.getElem?_set]
  by_cases hij : i = j
  · subst hij
    by_cases hlen : i < l.length
    · simp [hlen]
    · simp [hlen, List.getElem?_eq_none (not_lt.mp hlen)]
  · have hji : ¬ j = i := fun h => hij h.symm
    simp [hij, hji]

theorem cell_setCell {α : Type} [Zero α] (p : Grid α) (i j a b : Nat) (v : α) :
    cell (setCell p i j v) a b =
      if a = i ∧ b = j ∧ i < p.length ∧ j < (p.getD i []).length then v else cell p a b := by
  unfold cell setCell
  rw [getD_set_eq_ite]
  by_cases hai : a = i
  · subst hai
    by_cases hlen : a < p.length
    · rw [if_pos ⟨rfl, hlen⟩, getD_set_eq_ite]
      simp [hlen]
    · simp [hlen]
  · simp [hai]

theorem cell_setCell_of_ne {α : Type} [Zero α] (p : Grid α) (i j a b : Nat) (v : α)
    (h : a ≠ i ∨ b ≠ j) : cell (setCell p i j v) a b = cell p a b := by
  rw [cell_setCell]
  rcases h with h | h
  · simp [h]
  · simp [h]

theorem cell_eq_zero_of_not_inBounds {α : Type} [Zero α] (p : Grid α) (i j : Nat)
    (h : ¬ (i < p.length ∧ j < (p.getD i []).length)) : cell p i j = 0 := by
  unfold cell
  by_cases hlen : i < p.length
  · exact List.getD_eq_default _ _ (not_lt.mp (fun hj => h ⟨hlen, hj⟩))
  · rw [List.getD_eq_default p [] (not_lt.mp hlen)]
    rfl

theorem cell_setCell_scaled {α : Type} [LinearOrderedField α] (p : Grid α) (i j a b : Nat)
    (s : α) :
    cell (setCell p i j (cell p i j * s)) a b
      = if a = i ∧ b = j then cell p i j * s else cell p a b := by
  rw [cell_setCell]
  by_cases hab : a = i ∧ b = j
  · obtain ⟨rfl, rfl⟩ := hab
    by_cases hin : a < p.length ∧ b < (p.getD a []).length
    · rw [if_pos ⟨rfl, rfl, hin.1, hin.2⟩, if_pos ⟨rfl, rfl⟩]
    · have hz := cell_eq_zero_of_not_inBounds p a b hin
      rw [if_neg (fun h => hin ⟨h.2.2.1, h.2.2.2⟩), if_pos ⟨rfl, rfl⟩, hz, zero_mul]
  · have hne : ¬ (a = i ∧ b = j ∧ i < p.length ∧ j < (p.getD i []).length) :=
      fun h => hab ⟨h.1, h.2.1⟩
    rw [if_neg hne, if_neg hab]

theorem dayTotal_eq_sum {α : Type} [LinearOrderedField α] (n : Nat) (p : Grid α) (d : Nat) :
    dayTotal n p d = ∑ i in Finset.range n, cell p i d := by
  induction n with
  | zero => rfl
  | succ n ih =>
    rw [Finset.sum_range_succ, ← ih]
    rfl

theorem dayTotal_congr {α : Type} [LinearOrderedField α] (n : Nat) (p q : Grid α) (d : Nat)
    (h : ∀ i, i < n → cell p i d = cell q i d) : dayTotal n p d = dayTotal n q d := by
  rw [dayTotal_eq_sum, dayTotal_eq_sum]
  exact Finset.sum_congr rfl (fun i hi => h i (Finset.mem_range.mp hi))

theorem cell_scaleDay {α : Type} [LinearOrderedField α] (n : Nat) (p : Grid α) (d : Nat)
    (s : α) (a b : Nat) :
    cell (scaleDay n p d s) a b = if b = d ∧ a < n then cell p a d * s else cell p a b := by
  induction n with
  | zero => simp [scaleDay, forLoop]
  | succ n ih =>
    have hstep : scaleDay (n + 1) p d s
        = setCell (scaleDay n p d s) n d (cell (scaleDay n p d s) n d * s) := rfl
    rw [hstep, cell_setCell_scaled]
    by_cases hab : a = n ∧ b = d
    · obtain ⟨rfl, rfl⟩ := hab
      rw [if_pos ⟨rfl, rfl⟩, ih, if_neg (fun h => lt_irrefl a h.2),
        if_pos ⟨rfl, Nat.lt_succ_self a⟩]
    · rw [if_neg hab, ih]
      by_cases hb : b = d
      · subst hb
        have han : a ≠ n := fun h => hab ⟨h, rfl⟩
        by_cases hlt : a < n
        · rw [if_pos ⟨rfl, hlt⟩, if_pos ⟨rfl, Nat.lt_succ_of_lt hlt⟩]
        · have hlt2 : ¬ a < n + 1 := fun h =>
            han (Nat.le_antisymm (Nat.lt_succ_iff.mp h) (not_lt.mp hlt))
          rw [if_neg (fun h => hlt h.2), if_neg (fun h => hlt2 h.2)]
      · rw [if_neg (fun h => hb h.1), if_neg (fun h => hb h.1)]

theorem dayTotal_scaleDay_same {α : Type} [LinearOrderedField α] (n : Nat) (p : Grid α)
    (d : Nat) (s : α) : dayTotal n (scaleDay n p d s) d = dayTotal n p d * s := by
  rw [dayTotal_eq_sum, dayTotal_eq_sum, Finset.sum_mul]
  refine Finset.sum_congr rfl (fun i hi => ?_)
  rw [cell_scaleDay, if_pos ⟨rfl, Finset.mem_range.mp hi⟩]

theorem cell_scaleDay_of_ne {α : Type} [LinearOrderedField α] (n : Nat) (p : Grid α)
    (d : Nat) (s : α) (a b : Nat) (hb : b ≠ d) : cell (scaleDay n p d s) a b = cell p a b := by
  rw [cell_scaleDay, if_neg (fun h => hb h.1)]

theorem cell_repairDay_of_ne {α : Type} [LinearOrderedField α] (n : Nat) (limits : List α)
    (p : Grid α) (d a b : Nat) (hb : b ≠ d) :
    cell (repairDay n limits p d) a b = cell p a b := by
  unfold repairDay
  dsimp only
  split_ifs
  · exact cell_scaleDay_of_ne n p d _ a b hb
  · rfl

theorem dayTotal_repairDay_le {α : Type} [LinearOrderedField α] (n : Nat) (limits : List α)
    (p : Grid α) (d : Nat) (hb : 0 ≤ limits.getD d 0) :
    dayTotal n (repairDay n limits p d) d ≤ limits.getD d 0 := by
  unfold repairDay
  dsimp only
  split_ifs with hgt
  · have hpos : dayTotal n p d ≠ 0 := (lt_of_le_of_lt hb hgt).ne.symm
    rw [dayTotal_scaleDay_same, mul_div_cancel₀ _ hpos]
  · exact not_lt.mp hgt

/-! ### Initialization -/

theorem getD_nonneg_of_forall {α : Type} [LinearOrderedField α] (l : List α)
    (h : ∀ x ∈ l, 0 ≤ x) (d : Nat) : 0 ≤ l.getD d 0 := by
  by_cases hd : d < l.length
  · rw [List.getD_eq_getElem l 0 hd]
    exact h _ (List.getElem_mem hd)
  · rw [List.getD_eq_default l 0 (not_lt.mp hd)]

theorem fillStep_plan {α : Type} [LinearOrderedField α] (g : Globals α) (j i : Nat)
    (s : FillState α) :
    (fillStep g j i s).plan = setCell s.plan i j ((g.rand s.calls : α) / (g.RAND_MAX : α)) :=
  rfl

theorem fillStep_totalTime {α : Type} [LinearOrderedField α] (g : Globals α) (j i : Nat)
    (s : FillState α) :
    (fillStep g j i s).totalTime = s.totalTime + cell (fillStep g j i s).plan i j := rfl

theorem fillLoop_cell_of_ne {α : Type} [LinearOrderedField α] (g : Globals α) (j : Nat)
    (s0 : FillState α) (m a b : Nat) (hb : b ≠ j) :
    cell (forLoop m (fillStep g j) s0).plan a b = cell s0.plan a b := by
  induction m with
  | zero => rfl
  | succ m ih =>
    rw [forLoop_succ, fillStep_plan, cell_setCell_of_ne _ _ _ _ _ _ (Or.inr hb), ih]

theorem fillLoop_totalTime {α : Type} [LinearOrderedField α] (g : Globals α) (j : Nat)
    (p : Grid α) (c m : Nat) :
    (forLoop m (fillStep g j) (FillState.mk p c 0)).totalTime
      = dayTotal m (forLoop m (fillStep g j) (FillState.mk p c 0)).plan j := by
  induction m with
  | zero => rfl
  | succ m ih =>
    rw [forLoop_succ, fillStep_totalTime, ih, dayTotal_eq_sum, dayTotal_eq_sum,
      Finset.sum_range_succ]
    congr 1
    refine Finset.sum_congr rfl (fun i hi => ?_)
    have hne : i ≠ m := (Finset.mem_range.mp hi).ne
    rw [fillStep_plan, cell_setCell_of_ne _ _ _ _ _ _ (Or.inl hne)]

theorem initDay_cell_of_ne {α : Type} [LinearOrderedField α] (g : Globals α) (j : Nat)
    (st : Grid α × Nat) (a b : Nat) (hb : b ≠ j) :
    cell (initDay g j st).1 a b = cell st.1 a b := by
  unfold initDay fillDay
  dsimp only
  split_ifs
  · rw [cell_scaleDay_of_ne _ _ _ _ _ _ hb, fillLoop_cell_of_ne g j _ _ a b hb]
  · exact fillLoop_cell_of_ne g j _ _ a b hb

theorem initDay_total_le {α : Type} [LinearOrderedField α] (g : Globals α) (j : Nat)
    (st : Grid α × Nat) (hb : 0 ≤ g.dailyTimeLimit.getD j 0) :
    dayTotal g.numTask (initDay g j st).1 j ≤ g.dailyTimeLimit.getD j 0 := by
  unfold initDay fillDay
  dsimp only
  split_ifs with hgt
  · have hpos : (forLoop g.numTask (fillStep g j) (FillState.mk st.1 st.2 0)).totalTime ≠ 0 :=
      (lt_of_le_of_lt hb hgt).ne.symm
    rw [dayTotal_scaleDay_same, ← fillLoop_totalTime, mul_div_cancel₀ _ hpos]
  · rw [← fillLoop_totalTime]
    exact not_lt.mp hgt

theorem initLoop_total_le {α : Type} [LinearOrderedField α] (g : Globals α)
    (st : Grid α × Nat) (J : Nat) (hb : ∀ d, d < J → 0 ≤ g.dailyTimeLimit.getD d 0) :
    ∀ d, d < J → dayTotal g.numTask (forLoop J (initDay g) st).1 d
      ≤ g.dailyTimeLimit.getD d 0 := by
  induction J with
  | zero => intro d hd; exact absurd hd (Nat.not_lt_zero d)
  | succ J ih =>
    intro d hd
    rw [forLoop_succ]
    by_cases hdJ : d = J
    · subst hdJ
      exact initDay_total_le g d _ (hb d hd)
    · have hlt : d < J := lt_of_le_of_ne (Nat.lt_succ_iff.mp hd) hdJ
      have hsame : dayTotal g.numTask (initDay g J (forLoop J (initDay g) st)).1 d
          = dayTotal g.numTask (forLoop J (initDay g) st).1 d :=
        dayTotal_congr _ _ _ _ (fun i _ => initDay_cell_of_ne g J _ i d hdJ)
      rw [hsame]
      exact ih (fun e he => hb e (Nat.lt_succ_of_lt he)) d hlt

theorem initPlan_feasible {α : Type} [LinearOrderedField α] (g : Globals α)
    (hb : ∀ x ∈ g.dailyTimeLimit, 0 ≤ x) : Feasible g (initPlan g).1 :=
  initLoop_total_le g _ numDays (fun d _ => getD_nonneg_of_forall _ hb d)

/-! ### One iteration -/

theorem cell_perturbed_of_ne {α : Type} [LinearOrderedField α] (g : Globals α)
    (s : SAState α) (a b : Nat) (hb : b ≠ g.rand (s.calls + 1) % numDays) :
    cell (perturbed g s) a b = cell s.currentPlan a b := by
  unfold perturbed
  dsimp only
  split_ifs
  · rw [cell_setCell_of_ne _ _ _ _ _ _ (Or.inr hb), cell_setCell_of_ne _ _ _ _ _ _ (Or.inr hb)]
  · rw [cell_setCell_of_ne _ _ _ _ _ _ (Or.inr hb)]

theorem cell_candidate_of_ne {α : Type} [LinearOrderedField α] (g : Globals α)
    (s : SAState α) (a b : Nat) (hb : b ≠ g.rand (s.calls + 1) % numDays) :
    cell (candidate g s) a b = cell s.currentPlan a b := by
  unfold candidate
  rw [cell_repairDay_of_ne _ _ _ _ _ _ hb, cell_perturbed_of_ne g s a b hb]

theorem candidate_feasible {α : Type} [LinearOrderedField α] (g : Globals α)
    (s : SAState α) (hb : ∀ x ∈ g.dailyTimeLimit, 0 ≤ x) (hs : Feasible g s.currentPlan) :
    Feasible g (candidate g s) := by
  intro d hd
  by_cases hday : d = g.rand (s.calls + 1) % numDays
  · rw [hday]
    exact dayTotal_repairDay_le _ _ _ _ (getD_nonneg_of_forall _ hb _)
  · rw [dayTotal_congr _ _ s.currentPlan _ (fun i _ => cell_candidate_of_ne g s i d hday)]
    exact hs d hd

theorem saStep_currentPlan {α : Type} [LinearOrderedField α] (g : Globals α)
    (evaluationMatrix : Grid α) (coolingRate : α) (s : SAState α) :
    (saStep g evaluationMatrix coolingRate s).currentPlan
      = if accepts g.exp
            (getPlanEvaluation g.exp evaluationMatrix (candidate g s) g.numTask - s.currentScore)
            s.temperature ((g.rand (s.calls + 3) : α) / (g.RAND_MAX : α)) = true
        then candidate g s else s.currentPlan := by
  unfold saStep
  dsimp only
  split_ifs <;> rfl

theorem saStep_currentScore {α : Type} [LinearOrderedField α] (g : Globals α)
    (evaluationMatrix : Grid α) (coolingRate : α) (s : SAState α) :
    (saStep g evaluationMatrix coolingRate s).currentScore
      = if accepts g.exp
            (getPlanEvaluation g.exp evaluationMatrix (candidate g s) g.numTask - s.currentScore)
            s.temperature ((g.rand (s.calls + 3) : α) / (g.RAND_MAX : α)) = true
        then getPlanEvaluation g.exp evaluationMatrix (candidate g s) g.numTask
        else s.currentScore := by
  unfold saStep
  dsimp only
  split_ifs <;> rfl

theorem saStep_bestPlan {α : Type} [LinearOrderedField α] (g : Globals α)
    (evaluationMatrix : Grid α) (coolingRate : α) (s : SAState α) :
    (saStep g evaluationMatrix coolingRate s).bestPlan
      = if accepts g.exp
            (getPlanEvaluation g.exp evaluationMatrix (candidate g s) g.numTask - s.currentScore)
            s.temperature ((g.rand (s.calls + 3) : α) / (g.RAND_MAX : α)) = true
        then
          if getPlanEvaluation g.exp evaluationMatrix (candidate g s) g.numTask > s.bestScore
          then candidate g s else s.bestPlan
        else s.bestPlan := by
  unfold saStep
  dsimp only
  split_ifs <;> rfl

theorem saStep_bestScore {α : Type} [LinearOrderedField α] (g : Globals α)
    (evaluationMatrix : Grid α) (coolingRate : α) (s : SAState α) :
    (saStep g evaluationMatrix coolingRate s).bestScore
      = if accepts g.exp
            (getPlanEvaluation g.exp evaluationMatrix (candidate g s) g.numTask - s.currentScore)
            s.temperature ((g.rand (s.calls + 3) : α) / (g.RAND_MAX : α)) = true
        then
          if getPlanEvaluation g.exp evaluationMatrix (candidate g s) g.numTask > s.bestScore
          then getPlanEvaluation g.exp evaluationMatrix (candidate g s) g.numTask
          else s.bestScore
        else s.bestScore := by
  unfold saStep
  dsimp only
  split_ifs <;> rfl

theorem saStep_temperature {α : Type} [LinearOrderedField α] (g : Globals α)
    (evaluationMatrix : Grid α) (coolingRate : α) (s : SAState α) :
    (saStep g evaluationMatrix coolingRate s).temperature = s.temperature * coolingRate := by
  unfold saStep
  dsimp only
  split_ifs <;> rfl

theorem saStep_feasible {α : Type} [LinearOrderedField α] (g : Globals α)
    (evaluationMatrix : Grid α) (coolingRate : α) (s : SAState α)
    (hb : ∀ x ∈ g.dailyTimeLimit, 0 ≤ x)
    (hs : Feasible g s.currentPlan ∧ Feasible g s.bestPlan) :
    Feasible g (saStep g evaluationMatrix coolingRate s).currentPlan ∧
      Feasible g (saStep g evaluationMatrix coolingRate s).bestPlan := by
  have hc := candidate_feasible g s hb hs.1
  rw [saStep_currentPlan, saStep_bestPlan]
  split_ifs
  · exact ⟨hc, hc⟩
  · exact ⟨hc, hs.2⟩
  · exact hs

theorem saRun_succ {α : Type} [LinearOrderedField α] (g : Globals α)
    (evaluationMatrix : Grid α) (initialTemp coolingRate : α) (k : Nat) :
    saRun g evaluationMatrix initialTemp coolingRate (k + 1)
      = saStep g evaluationMatrix coolingRate
          (saRun g evaluationMatrix initialTemp coolingRate k) := rfl

theorem saRun_feasible {α : Type} [LinearOrderedField α] (g : Globals α)
    (evaluationMatrix : Grid α) (initialTemp coolingRate : α)
    (hb : ∀ x ∈ g.dailyTimeLimit, 0 ≤ x) (k : Nat) :
    Feasible g (saRun g evaluationMatrix initialTemp coolingRate k).currentPlan ∧
      Feasible g (saRun g evaluationMatrix initialTemp coolingRate k).bestPlan := by
  induction k with
  | zero => exact ⟨initPlan_feasible g hb, initPlan_feasible g hb⟩
  | succ k ih =>
    rw [saRun_succ]
    exact saStep_feasible g evaluationMatrix coolingRate _ hb ih

/-! ### The plan keeps its `numTask × numDays` shape

Every read and write of the search is made at a row below `numTask` and a column
below `numDays` of a plan of that shape, so the out-of-bounds conventions of `cell`
and `setCell` are never exercised. -/

theorem wellShaped_setCell {α : Type} (n : Nat) (p : Grid α) (i j : Nat) (v : α)
    (hp : WellShaped n p) : WellShaped n (setCell p i j v) := by
  unfold setCell
  by_cases hi : i < p.length
  · refine ⟨by rw [List.length_set]; exact hp.1, ?_⟩
    intro row hrow
    rcases List.mem_or_eq_of_mem_set hrow with hmem | heq
    · exact hp.2 row hmem
    · rw [heq, List.length_set, List.getD_eq_getElem p [] hi]
      exact hp.2 _ (List.getElem_mem hi)
  · rw [List.set_eq_of_length_le (not_lt.mp hi)]
    exact hp

theorem cell_setCell_self {α : Type} [Zero α] (n : Nat) (p : Grid α) (i j : Nat) (v : α)
    (hp : WellShaped n p) (hi : i < n) (hj : j < numDays) :
    cell (setCell p i j v) i j = v := by
  have hlen : i < p.length := by rw [hp.1]; exact hi
  have hrow : (p.getD i []).length = numDays := by
    rw [List.getD_eq_getElem p [] hlen]
    exact hp.2 _ (List.getElem_mem hlen)
  rw [cell_setCell, if_pos ⟨rfl, rfl, hlen, by rw [hrow]; exact hj⟩]

theorem wellShaped_forLoop_setCell {α : Type} (n : Nat) (m : Nat)
    (body : Nat → Grid α → Grid α)
    (hbody : ∀ i q, WellShaped n q → WellShaped n (body i q)) (p : Grid α)
    (hp : WellShaped n p) : WellShaped n (forLoop m body p) := by
  induction m with
  | zero => exact hp
  | succ m ih => exact hbody m _ ih

theorem wellShaped_scaleDay {α : Type} [LinearOrderedField α] (n m : Nat) (p : Grid α)
    (d : Nat) (s : α) (hp : WellShaped n p) : WellShaped n (scaleDay m p d s) :=
  wellShaped_forLoop_setCell n m _ (fun i q hq => wellShaped_setCell n q i d _ hq) p hp

theorem wellShaped_repairDay {α : Type} [LinearOrderedField α] (n m : Nat) (limits : List α)
    (p : Grid α) (d : Nat) (hp : WellShaped n p) : WellShaped n (repairDay m limits p d) := by
  unfold repairDay
  dsimp only
  split_ifs
  · exact wellShaped_scaleDay n m p d _ hp
  · exact hp

theorem wellShaped_fillLoop {α : Type} [LinearOrderedField α] (g : Globals α) (n j m : Nat)
    (s0 : FillState α) (hp : WellShaped n s0.plan) :
    WellShaped n (forLoop m (fillStep g j) s0).plan := by
  induction m with
  | zero => exact hp
  | succ m ih =>
    rw [forLoop_succ, fillStep_plan]
    exact wellShaped_setCell n _ m j _ ih

theorem wellShaped_initDay {α : Type} [LinearOrderedField α] (g : Globals α) (n j : Nat)
    (st : Grid α × Nat) (hp : WellShaped n st.1) : WellShaped n (initDay g j st).1 := by
  unfold initDay fillDay
  dsimp only
  split_ifs
  · exact wellShaped_scaleDay n _ _ j _ (wellShaped_fillLoop g n j _ _ hp)
  · exact wellShaped_fillLoop g n j _ _ hp

theorem wellShaped_initPlan {α : Type} [LinearOrderedField α] (g : Globals α) :
    WellShaped g.numTask (initPlan g).1 := by
  unfold initPlan
  have hstart : WellShaped g.numTask
      (List.replicate g.numTask (List.replicate numDays (0 : α)), 0).1 :=
    ⟨List.length_replicate _ _, fun row hrow => by
      rw [List.eq_of_mem_replicate hrow, List.length_replicate]⟩
  generalize (List.replicate g.numTask (List.replicate numDays (0 : α)), 0) = st at hstart
  induction numDays with
  | zero => exact hstart
  | succ J ih => exact wellShaped_initDay g g.numTask J _ ih

theorem wellShaped_candidate {α : Type} [LinearOrderedField α] (g : Globals α)
    (s : SAState α) (hp : WellShaped g.numTask s.currentPlan) :
    WellShaped g.numTask (candidate g s) := by
  unfold candidate
  refine wellShaped_repairDay _ _ _ _ _ ?_
  unfold perturbed
  dsimp only
  split_ifs
  · exact wellShaped_setCell _ _ _ _ _ (wellShaped_setCell _ _ _ _ _ hp)
  · exact wellShaped_setCell _ _ _ _ _ hp

theorem wellShaped_saRun {α : Type} [LinearOrderedField α] (g : Globals α)
    (evaluationMatrix : Grid α) (initialTemp coolingRate : α) (k : Nat) :
    WellShaped g.numTask (saRun g evaluationMatrix initialTemp coolingRate k).currentPlan ∧
      WellShaped g.numTask (saRun g evaluationMatrix initialTemp coolingRate k).bestPlan := by
  induction k with
  | zero => exact ⟨wellShaped_initPlan g, wellShaped_initPlan g⟩
  | succ k ih =>
    have hc := wellShaped_candidate g _ ih.1
    rw [saRun_succ, saStep_currentPlan, saStep_bestPlan]
    split_ifs
    · exact ⟨hc, hc⟩
    · exact ⟨hc, ih.2⟩
    · exact ih

/-! ### Claims on the search state -/

/-- C1: with at least one subject and 7 non-negative day budgets, after
initialization and after every iteration the current plan and the best plan keep
every day total within the day budget, and so does the plan returned by
`simulatedAnnealing`, whatever the draws, the subject table and the iteration count. -/
theorem budget_feasibility_invariant {α : Type} [LinearOrderedField α] (g : Globals α)
    (evaluationMatrix : Grid α) (initialTemp coolingRate : α)
    (_hn : 1 ≤ g.numTask) (_hlen : g.dailyTimeLimit.length = numDays)
    (hb : ∀ x ∈ g.dailyTimeLimit, 0 ≤ x) :
    (∀ k : Nat,
      Feasible g (saRun g evaluationMatrix initialTemp coolingRate k).currentPlan ∧
      Feasible g (saRun g evaluationMatrix initialTemp coolingRate k).bestPlan) ∧
    ∀ maxIterations : Int,
      Feasible g (simulatedAnnealing g evaluationMatrix maxIterations initialTemp coolingRate) :=
  ⟨fun k => saRun_feasible g evaluationMatrix initialTemp coolingRate hb k,
    fun maxIterations =>
      (saRun_feasible g evaluationMatrix initialTemp coolingRate hb maxIterations.toNat).2⟩

/-- Witness of C1 on the sample run: the hypotheses hold there, and the plan
returned after 200 iterations is feasible. -/
theorem budget_feasibility_invariant_witness :
    (1 ≤ sampleGlobals.numTask ∧ sampleGlobals.dailyTimeLimit.length = numDays) ∧
      Feasible sampleGlobals
        (simulatedAnnealing sampleGlobals sampleMatrix 200 1000 (999998 / 1000000)) :=
  ⟨⟨by decide, by decide⟩,
    (budget_feasibility_invariant sampleGlobals sampleMatrix 1000 (999998 / 1000000)
      (by decide) (by decide) (by simp [sampleGlobals])).2 200⟩

/-- C2: for a non-negative day budget, after the day repair the day total is at most
the budget; and when the total exceeded the budget, every cell of the day has been
multiplied by `budget / total`. -/
theorem repairDay_bounds_day_total {α : Type} [LinearOrderedField α] (numTask : Nat)
    (dailyTimeLimit : List α) (plan : Grid α) (d : Nat)
    (hb : 0 ≤ dailyTimeLimit.getD d 0) :
    dayTotal numTask (repairDay numTask dailyTimeLimit plan d) d ≤ dailyTimeLimit.getD d 0 ∧
    (dayTotal numTask plan d > dailyTimeLimit.getD d 0 → ∀ i, i < numTask →
      cell (repairDay numTask dailyTimeLimit plan d) i d
        = cell plan i d * (dailyTimeLimit.getD d 0 / dayTotal numTask plan d)) := by
  refine ⟨dayTotal_repairDay_le numTask dailyTimeLimit plan d hb, ?_⟩
  intro hgt i hi
  unfold repairDay
  dsimp only
  rw [if_pos hgt, cell_scaleDay, if_pos ⟨rfl, hi⟩]

/-- Witness of C2 on the sample plan: day 0 totals 2.5 hours against a budget of 2. -/
theorem repairDay_bounds_day_total_witness :
    dayTotal 2 (repairDay 2 [2, 2, 2, 2, 2, 2, 2] samplePlan 0) 0 ≤ (2 : ℚ) :=
  (repairDay_bounds_day_total 2 [2, 2, 2, 2, 2, 2, 2] samplePlan 0 (by norm_num)).1

/-- C3: `bestScore` never decreases from one iteration to the next. -/
theorem bestScore_nondecreasing {α : Type} [LinearOrderedField α] (g : Globals α)
    (evaluationMatrix : Grid α) (initialTemp coolingRate : α) (k : Nat) :
    (saRun g evaluationMatrix initialTemp coolingRate k).bestScore
      ≤ (saRun g evaluationMatrix initialTemp coolingRate (k + 1)).bestScore := by
  rw [saRun_succ, saStep_bestScore]
  split_ifs with _ hgt
  · exact le_of_lt hgt
  · exact le_refl _
  · exact le_refl _

/-- C4: for a non-negative day budget the day repair is idempotent, and on a day
whose total is already within the budget it returns the plan unchanged. -/
theorem repairDay_idempotent {α : Type} [LinearOrderedField α] (numTask : Nat)
    (dailyTimeLimit : List α) (plan : Grid α) (d : Nat)
    (hb : 0 ≤ dailyTimeLimit.getD d 0) :
    repairDay numTask dailyTimeLimit (repairDay numTask dailyTimeLimit plan d) d
      = repairDay numTask dailyTimeLimit plan d ∧
    (dayTotal numTask plan d ≤ dailyTimeLimit.getD d 0 →
      repairDay numTask dailyTimeLimit plan d = plan) := by
  have hnoop : ∀ q : Grid α, dayTotal numTask q d ≤ dailyTimeLimit.getD d 0 →
      repairDay numTask dailyTimeLimit q d = q := by
    intro q hq
    unfold repairDay
    dsimp only
    rw [if_neg (not_lt.mpr hq)]
  exact ⟨hnoop _ (dayTotal_repairDay_le numTask dailyTimeLimit plan d hb), hnoop plan⟩

/-- Witness of C4 on the sample plan, day 0. -/
theorem repairDay_idempotent_witness :
    repairDay 2 [2, 2, 2, 2, 2, 2, 2] (repairDay 2 [2, 2, 2, 2, 2, 2, 2] samplePlan 0) 0
      = repairDay 2 [2, 2, 2, 2, 2, 2, 2] samplePlan 0 :=
  (repairDay_idempotent 2 ([2, 2, 2, 2, 2, 2, 2] : List ℚ) samplePlan 0 (by norm_num)).1

/-! ### Claims on the activation function -/

/-- C5 as amended: whenever `minTime < plateau` and `plateau ≠ 0`, the activation at
`hours = plateau` is exactly the weight, and no division on the way has a zero
divisor. -/
theorem activation_at_plateau {α : Type} [LinearOrderedField α] (weight minTime plateau : α)
    (h : minTime < plateau) (hp : plateau ≠ 0) :
    activationC weight minTime plateau plateau = some weight ∧
    activation weight minTime plateau plateau = weight := by
  have hval : activation weight minTime plateau plateau = weight := by
    unfold activation
    rw [if_neg (not_lt.mpr h.le), if_neg (lt_irrefl plateau)]
    simp
  have h10 : (10 : α) ≠ 0 := by norm_num
  refine ⟨?_, hval⟩
  unfold activationC
  rw [if_neg (not_lt.mpr h.le), if_neg (lt_irrefl plateau), divC, if_neg hp,
    Option.some_bind, divC, if_neg h10, Option.some_bind]
  simp

/-- Witness of the amended C5 at the subject of the header example (1.5, 0.5, 1.5). -/
theorem activation_at_plateau_witness :
    activationC (3 / 2 : ℚ) (1 / 2) (3 / 2) (3 / 2) = some (3 / 2) ∧
    activation (3 / 2 : ℚ) (1 / 2) (3 / 2) (3 / 2) = 3 / 2 :=
  activation_at_plateau (3 / 2 : ℚ) (1 / 2) (3 / 2) (by norm_num) (by norm_num)

/-- Closed form of `activation` on the third branch, `hours ≥ plateau > minTime`. -/
theorem activation_post_plateau {α : Type} [LinearOrderedField α] (k1 k2 t1 t : α)
    (h21 : k2 < t1) (ht : t1 ≤ t) :
    activation k1 k2 t1 t = k1 + (t - t1) * k1 / t1 / 10 := by
  unfold activation
  rw [if_neg (not_lt.mpr (h21.le.trans ht)), if_neg (not_lt.mpr ht)]

/-- Closed form of `activation` on the first branch, `hours < minTime`. -/
theorem activation_zero_below_minTime_aux {α : Type} [LinearOrderedField α]
    (k1 k2 t1 t : α) (h : t < k2) : activation k1 k2 t1 t = 0 := by
  unfold activation
  rw [if_pos h]

/-- Closed form of `activation` on the second branch, `minTime ≤ hours < plateau`. -/
theorem activation_ramp {α : Type} [LinearOrderedField α] (k1 k2 t1 t : α)
    (h2 : k2 ≤ t) (ht : t < t1) : activation k1 k2 t1 t = k1 / t1 * t := by
  unfold activation
  rw [if_neg (not_lt.mpr h2), if_pos ht]

/-- C6: for a valid subject (`weight > 0`, `minTime ≥ 0`, `plateau > minTime`) the
activation is non-decreasing in the hours on `hours ≥ plateau`. -/
theorem activation_mono_post_plateau {α : Type} [LinearOrderedField α]
    (weight minTime plateau h1 h2 : α) (hw : 0 < weight) (hm : 0 ≤ minTime)
    (hp : minTime < plateau) (hp1 : plateau ≤ h1) (h12 : h1 ≤ h2) :
    activation weight minTime plateau h1 ≤ activation weight minTime plateau h2 := by
  have hpos : 0 < plateau := lt_of_le_of_lt hm hp
  rw [activation_post_plateau weight minTime plateau h1 hp hp1,
    activation_post_plateau weight minTime plateau h2 hp (hp1.trans h12)]
  have hstep : (h1 - plateau) * weight ≤ (h2 - plateau) * weight :=
    mul_le_mul_of_nonneg_right (sub_le_sub_right h12 plateau) hw.le
  have hdiv : (h1 - plateau) * weight / plateau / 10 ≤ (h2 - plateau) * weight / plateau / 10 :=
    div_le_div_of_nonneg_right (div_le_div_of_nonneg_right hstep hpos.le) (by norm_num)
  linarith

/-- Witness of C6 at the header subject (1.5, 0.5, 1.5), hours 2 and 3. -/
theorem activation_mono_post_plateau_witness :
    activation (3 / 2 : ℚ) (1 / 2) (3 / 2) 2 ≤ activation (3 / 2 : ℚ) (1 / 2) (3 / 2) 3 :=
  activation_mono_post_plateau (3 / 2 : ℚ) (1 / 2) (3 / 2) 2 3
    (by norm_num) (by norm_num) (by norm_num) (by norm_num) (by norm_num)

/-- C8: for every weight, minimum time and plateau, `activation` is `0` at every
`hours < minTime`. -/
theorem activation_zero_below_minTime {α : Type} [LinearOrderedField α]
    (weight minTime plateau hours : α) (h : hours < minTime) :
    activation weight minTime plateau hours = 0 :=
  activation_zero_below_minTime_aux weight minTime plateau hours h

/-- Witness of C8 at the header subject (1.5, 0.5, 1.5), hours 0.25. -/
theorem activation_zero_below_minTime_witness :
    (1 / 4 : ℚ) < 1 / 2 ∧ activation (3 / 2 : ℚ) (1 / 2) (3 / 2) (1 / 4) = 0 :=
  ⟨by norm_num,
    activation_zero_below_minTime (3 / 2 : ℚ) (1 / 2) (3 / 2) (1 / 4) (by norm_num)⟩

/-- C9: for a valid subject, between `minTime` and `plateau` the activation grows at
rate `weight / plateau`, and from `plateau` on at one tenth of that rate. -/
theorem activation_marginal_rates {α : Type} [LinearOrderedField α]
    (weight minTime plateau : α) (_hw : 0 < weight) (hm : 0 ≤ minTime)
    (hp : minTime < plateau) :
    (∀ h1 h2 : α, h1 < h2 → minTime ≤ h1 → h2 < plateau →
        activation weight minTime plateau h2 - activation weight minTime plateau h1
          = (h2 - h1) * weight / plateau) ∧
    (∀ h1 h2 : α, h1 < h2 → plateau ≤ h1 →
        activation weight minTime plateau h2 - activation weight minTime plateau h1
          = (h2 - h1) * (weight / plateau) / 10) := by
  have hpos : plateau ≠ 0 := (lt_of_le_of_lt hm hp).ne.symm
  refine ⟨?_, ?_⟩
  · intro h1 h2 h12 hm1 h2p
    rw [activation_ramp weight minTime plateau h2 (hm1.trans h12.le) h2p,
      activation_ramp weight minTime plateau h1 hm1 (h12.trans h2p)]
    field_simp
    ring
  · intro h1 h2 h12 hp1
    rw [activation_post_plateau weight minTime plateau h2 hp (hp1.trans h12.le),
      activation_post_plateau weight minTime plateau h1 hp hp1]
    field_simp
    ring

/-- Witness of C9 at the header subject (1.5, 0.5, 1.5): hours 0.75 to 1 on the
ramp, hours 2 to 3 past the plateau. -/
theorem activation_marginal_rates_witness :
    activation (3 / 2 : ℚ) (1 / 2) (3 / 2) 1 - activation (3 / 2) (1 / 2) (3 / 2) (3 / 4)
        = (1 - 3 / 4) * (3 / 2) / (3 / 2) ∧
    activation (3 / 2 : ℚ) (1 / 2) (3 / 2) 3 - activation (3 / 2) (1 / 2) (3 / 2) 2
        = (3 - 2) * ((3 / 2) / (3 / 2)) / 10 :=
  ⟨(activation_marginal_rates (3 / 2 : ℚ) (1 / 2) (3 / 2) (by norm_num) (by norm_num)
      (by norm_num)).1 (3 / 4) 1 (by norm_num) (by norm_num) (by norm_num),
    (activation_marginal_rates (3 / 2 : ℚ) (1 / 2) (3 / 2) (by norm_num) (by norm_num)
      (by norm_num)).2 2 3 (by norm_num) (by norm_num)⟩

/-! ### Continuity of the activation function -/

theorem activation_continuousAt_plateau_aux (w m p : ℝ) (hm : 0 ≤ m) (hp : m < p) :
    ContinuousAt (fun h : ℝ => activation w m p h) p := by
  have hp0 : p ≠ 0 := (lt_of_le_of_lt hm hp).ne.symm
  have hcont : Continuous
      (fun h : ℝ => if p ≤ h then w + (h - p) * w / p / 10 else w / p * h) := by
    refine Continuous.if_le (by fun_prop) (by fun_prop) continuous_const continuous_id ?_
    intro x hx
    simp only [id] at hx
    subst hx
    field_simp
  refine hcont.continuousAt.congr ?_
  filter_upwards [eventually_gt_nhds hp] with h hh
  unfold activation
  rw [if_neg (not_lt.mpr hh.le)]
  by_cases hph : p ≤ h
  · rw [if_pos hph, if_neg (not_lt.mpr hph)]
  · rw [if_neg hph, if_pos (not_le.mp hph)]

theorem activation_continuousAt_zero_minTime (w p : ℝ) (hp : 0 < p) :
    ContinuousAt (fun h : ℝ => activation w 0 p h) 0 := by
  have hcont : Continuous (fun h : ℝ => if 0 ≤ h then w / p * h else 0) := by
    refine Continuous.if_le (by fun_prop) continuous_const continuous_const continuous_id ?_
    intro x hx
    simp only [id] at hx
    subst hx
    simp
  refine hcont.continuousAt.congr ?_
  filter_upwards [eventually_lt_nhds hp] with h hh
  unfold activation
  by_cases h0 : 0 ≤ h
  · rw [if_pos h0, if_neg (not_lt.mpr h0), if_pos hh]
  · rw [if_neg h0, if_pos (not_le.mp h0)]

theorem activation_not_continuousAt_minTime (w m p : ℝ) (hw : 0 < w) (hm : 0 < m)
    (hp : m < p) : ¬ ContinuousAt (fun h : ℝ => activation w m p h) m := by
  intro hc
  have hval : activation w m p m = w / p * m := activation_ramp w m p m (le_refl m) hp
  have hpos : 0 < activation w m p m := by
    rw [hval]
    exact mul_pos (div_pos hw (hm.trans hp)) hm
  have hev : ∀ᶠ h in nhds m, 0 < activation w m p h :=
    Filter.Tendsto.eventually hc (eventually_gt_nhds hpos)
  obtain ⟨ε, hε, hball⟩ := Metric.eventually_nhds_iff.mp hev
  have hdist : dist (m - ε / 2) m < ε := by
    rw [Real.dist_eq]
    have : m - ε / 2 - m = -(ε / 2) := by ring
    rw [this, abs_neg, abs_of_pos (half_pos hε)]
    exact half_lt_self hε
  have hlt := hball hdist
  rw [activation_zero_below_minTime_aux w m p (m - ε / 2) (by linarith)] at hlt
  exact lt_irrefl 0 hlt

/-- Refutation of C7 as stated, at the header subject (1.5, 0.5, 1.5): the activation
is not continuous at both breakpoints, it jumps at `hours = minTime = 0.5`. -/
theorem activation_continuity_counterexample :
    ¬ (ContinuousAt (fun h : ℝ => activation (3 / 2) (1 / 2) (3 / 2) h) (1 / 2) ∧
        ContinuousAt (fun h : ℝ => activation (3 / 2) (1 / 2) (3 / 2) h) (3 / 2)) :=
  fun hboth => activation_not_continuousAt_minTime (3 / 2) (1 / 2) (3 / 2)
    (by norm_num) (by norm_num) (by norm_num) hboth.1

/-- C7 as amended: for a valid subject the activation is continuous at
`hours = plateau`, and it is continuous at `hours = minTime` exactly when
`minTime = 0`. -/
theorem activation_continuity_amended (weight minTime plateau : ℝ) (hw : 0 < weight)
    (hm : 0 ≤ minTime) (hp : minTime < plateau) :
    ContinuousAt (fun h : ℝ => activation weight minTime plateau h) plateau ∧
    (ContinuousAt (fun h : ℝ => activation weight minTime plateau h) minTime
      ↔ minTime = 0) := by
  refine ⟨activation_continuousAt_plateau_aux weight minTime plateau hm hp, ?_, ?_⟩
  · intro hc
    by_contra hne
    exact activation_not_continuousAt_minTime weight minTime plateau hw
      (lt_of_le_of_ne hm (Ne.symm hne)) hp hc
  · intro h0
    subst h0
    exact activation_continuousAt_zero_minTime weight plateau hp

/-- Witness of the amended C7 at the header subject (1.5, 0.5, 1.5). -/
theorem activation_continuity_amended_witness :
    ContinuousAt (fun h : ℝ => activation (3 / 2) (1 / 2) (3 / 2) h) (3 / 2) ∧
    (ContinuousAt (fun h : ℝ => activation (3 / 2) (1 / 2) (3 / 2) h) (1 / 2)
      ↔ (1 / 2 : ℝ) = 0) :=
  activation_continuity_amended (3 / 2) (1 / 2) (3 / 2) (by norm_num) (by norm_num)
    (by norm_num)

/-! ### The plan evaluation -/

theorem forLoop_pair_sums {α : Type} [LinearOrderedField α] (a b : Nat → α) (x y : α)
    (n : Nat) :
    forLoop n (fun d (st : α × α) => (st.1 + a d, st.2 + b d)) (x, y)
      = (x + ∑ d in Finset.range n, a d, y + ∑ d in Finset.range n, b d) := by
  induction n with
  | zero => simp [forLoop]
  | succ n ih =>
    rw [forLoop_succ, ih, Finset.sum_range_succ, Finset.sum_range_succ]
    simp only [add_assoc]

theorem activationSum_succ {α : Type} [LinearOrderedField α] (evaluationMatrix plan : Grid α)
    (n : Nat) :
    activationSum evaluationMatrix plan (n + 1)
      = activationSum evaluationMatrix plan n
        + ∑ d in Finset.range numDays,
            activation (cell evaluationMatrix n 0) (cell evaluationMatrix n 1)
              (cell evaluationMatrix n 2) (cell plan n d) := by
  unfold activationSum
  rw [Finset.sum_range_succ]

theorem evaluation_loop {α : Type} [LinearOrderedField α] (exp : α → α)
    (evaluationMatrix plan : Grid α) (c : α) (n : Nat) :
    forLoop n (fun taskIndex (acc : α × α) =>
      ((forLoop numDays (fun dayIndex (st : α × α) =>
          (st.1 + activation (cell evaluationMatrix taskIndex 0)
              (cell evaluationMatrix taskIndex 1) (cell evaluationMatrix taskIndex 2)
              (cell plan taskIndex dayIndex),
            st.2 + cell plan taskIndex dayIndex * cell evaluationMatrix taskIndex 0))
          (acc.1, 0)).1,
        acc.2 + 1 / (1 + exp (-(forLoop numDays (fun dayIndex (st : α × α) =>
          (st.1 + activation (cell evaluationMatrix taskIndex 0)
              (cell evaluationMatrix taskIndex 1) (cell evaluationMatrix taskIndex 2)
              (cell plan taskIndex dayIndex),
            st.2 + cell plan taskIndex dayIndex * cell evaluationMatrix taskIndex 0))
          (acc.1, 0)).2)) / c)) (0, 1)
      = (activationSum evaluationMatrix plan n,
          1 + ∑ i in Finset.range n, sigmoid exp (taskTotal evaluationMatrix plan i) / c) := by
  induction n with
  | zero => simp [forLoop, activationSum]
  | succ n ih =>
    rw [forLoop_succ, ih]
    simp only [forLoop_pair_sums, zero_add]
    rw [Finset.sum_range_succ, add_assoc, activationSum_succ]
    rfl

theorem getPlanEvaluation_eq_spec {α : Type} [LinearOrderedField α] (exp : α → α)
    (evaluationMatrix plan : Grid α) (numTask : Nat) :
    getPlanEvaluation exp evaluationMatrix plan numTask
      = activationSum evaluationMatrix plan numTask
          * balanceMultiplier exp evaluationMatrix plan numTask := by
  unfold getPlanEvaluation
  dsimp only
  rw [evaluation_loop]
  dsimp only
  unfold balanceMultiplier
  rw [Finset.mul_sum]
  congr 2
  refine Finset.sum_congr rfl (fun i _ => ?_)
  ring

theorem sigmoid_pos_lt_one (x : ℝ) : 0 < sigmoid Real.exp x ∧ sigmoid Real.exp x < 1 := by
  unfold sigmoid
  have he : 0 < Real.exp (-x) := Real.exp_pos _
  have hden : 0 < 1 + Real.exp (-x) := by linarith
  refine ⟨div_pos one_pos hden, ?_⟩
  rw [div_lt_one hden]
  linarith

/-- C10: with `numTask ≥ 1` subjects, `getPlanEvaluation` returns `S * m`, where `S`
is the sum of `activation` over all subjects and days and
`m = 1 + (1/numTask) * Σ_i sigmoid(Σ_d plan[i][d] * weight_i)`; `m` lies strictly
between 1 and 2 and each subject contributes a term strictly between 0 and
`1/numTask`. -/
theorem getPlanEvaluation_balance_multiplier (evaluationMatrix plan : Grid ℝ) (numTask : Nat)
    (hn : 1 ≤ numTask) :
    getPlanEvaluation Real.exp evaluationMatrix plan numTask
      = activationSum evaluationMatrix plan numTask
          * balanceMultiplier Real.exp evaluationMatrix plan numTask ∧
    1 < balanceMultiplier Real.exp evaluationMatrix plan numTask ∧
    balanceMultiplier Real.exp evaluationMatrix plan numTask < 2 ∧
    ∀ i, i < numTask →
      0 < 1 / (numTask : ℝ) * sigmoid Real.exp (taskTotal evaluationMatrix plan i) ∧
      1 / (numTask : ℝ) * sigmoid Real.exp (taskTotal evaluationMatrix plan i)
        < 1 / (numTask : ℝ) := by
  have hN : (0 : ℝ) < (numTask : ℝ) := Nat.cast_pos.mpr hn
  have hinv : (0 : ℝ) < 1 / (numTask : ℝ) := div_pos one_pos hN
  have hterm : ∀ i,
      0 < 1 / (numTask : ℝ) * sigmoid Real.exp (taskTotal evaluationMatrix plan i) ∧
      1 / (numTask : ℝ) * sigmoid Real.exp (taskTotal evaluationMatrix plan i)
        < 1 / (numTask : ℝ) := by
    intro i
    obtain ⟨h0, h1⟩ := sigmoid_pos_lt_one (taskTotal evaluationMatrix plan i)
    refine ⟨mul_pos hinv h0, ?_⟩
    calc 1 / (numTask : ℝ) * sigmoid Real.exp (taskTotal evaluationMatrix plan i)
        < 1 / (numTask : ℝ) * 1 := mul_lt_mul_of_pos_left h1 hinv
      _ = 1 / (numTask : ℝ) := mul_one _
  have hne : (Finset.range numTask).Nonempty := Finset.nonempty_range_iff.mpr (by omega)
  have hsum_pos : 0 < ∑ i in Finset.range numTask,
      1 / (numTask : ℝ) * sigmoid Real.exp (taskTotal evaluationMatrix plan i) :=
    Finset.sum_pos (fun i _ => (hterm i).1) hne
  have hsum_lt : ∑ i in Finset.range numTask,
      1 / (numTask : ℝ) * sigmoid Real.exp (taskTotal evaluationMatrix plan i)
        < ∑ _i in Finset.range numTask, 1 / (numTask : ℝ) :=
    Finset.sum_lt_sum_of_nonempty hne (fun i _ => (hterm i).2)
  have hone : ∑ _i in Finset.range numTask, 1 / (numTask : ℝ) = 1 := by
    rw [Finset.sum_const, Finset.card_range, nsmul_eq_mul]
    field_simp
  have hm : balanceMultiplier Real.exp evaluationMatrix plan numTask
      = 1 + ∑ i in Finset.range numTask,
          1 / (numTask : ℝ) * sigmoid Real.exp (taskTotal evaluationMatrix plan i) := by
    unfold balanceMultiplier
    rw [Finset.mul_sum]
  refine ⟨getPlanEvaluation_eq_spec Real.exp evaluationMatrix plan numTask, ?_, ?_, ?_⟩
  · rw [hm]; linarith
  · rw [hm]; linarith
  · intro i _
    exact hterm i

/-- Witness of C10: one subject, the header row (1.5, 0.5, 1.5), one hour a day. -/
theorem getPlanEvaluation_balance_multiplier_witness :
    1 < balanceMultiplier Real.exp [[3 / 2, 1 / 2, 3 / 2]] [[1, 1, 1, 1, 1, 1, 1]] 1 ∧
      balanceMultiplier Real.exp [[3 / 2, 1 / 2, 3 / 2]] [[1, 1, 1, 1, 1, 1, 1]] 1 < 2 :=
  ⟨(getPlanEvaluation_balance_multiplier [[3 / 2, 1 / 2, 3 / 2]] [[1, 1, 1, 1, 1, 1, 1]] 1
      (le_refl 1)).2.1,
    (getPlanEvaluation_balance_multiplier [[3 / 2, 1 / 2, 3 / 2]] [[1, 1, 1, 1, 1, 1, 1]] 1
      (le_refl 1)).2.2.1⟩

/-! ### Loading the inputs -/

theorem padTimeLimit_of_length_ge {α : Type} (l : List α) (h : numDays ≤ l.length) :
    padTimeLimit l = some l := by
  rw [padTimeLimit, if_neg (not_lt.mpr h)]

theorem padTimeLimit_nil {α : Type} : padTimeLimit ([] : List α) = none := by
  have hlt : ([] : List α).length < numDays := Nat.zero_lt_succ 6
  rw [padTimeLimit, if_pos hlt]
  rfl

theorem padTimeLimit_step {α : Type} (l : List α) (hne : l ≠ []) (h : l.length < numDays) :
    padTimeLimit l = padTimeLimit (l ++ [l.getLast hne]) := by
  rw [padTimeLimit, if_pos h, List.getLast?_eq_getLast l hne]

theorem padTimeLimit_eq_append_replicate {α : Type} (k : Nat) :
    ∀ (l : List α) (hne : l ≠ []), numDays - l.length = k →
      padTimeLimit l = some (l ++ List.replicate k (l.getLast hne)) := by
  induction k with
  | zero =>
    intro l hne hk
    rw [padTimeLimit_of_length_ge l (Nat.le_of_sub_eq_zero hk)]
    simp
  | succ k ih =>
    intro l hne hk
    have hlt : l.length < numDays := by omega
    have hne2 : l ++ [l.getLast hne] ≠ [] := by simp
    have hk2 : numDays - (l ++ [l.getLast hne]).length = k := by
      rw [List.length_append, List.length_singleton]
      omega
    rw [padTimeLimit_step l hne hlt, ih _ hne2 hk2, List.getLast_append_singleton,
      List.append_assoc, List.replicate_succ]
    rfl

theorem padTimeLimit_length {α : Type} (l r : List α) (h : padTimeLimit l = some r) :
    numDays ≤ r.length := by
  by_cases hne : l = []
  · rw [hne, padTimeLimit_nil] at h
    exact absurd h (by simp)
  · rw [padTimeLimit_eq_append_replicate _ l hne rfl] at h
    have hr : r = l ++ List.replicate (numDays - l.length) (l.getLast hne) :=
      (Option.some.inj h).symm
    rw [hr, List.length_append, List.length_replicate]
    omega

/-- C11, failing input: on a readable day-budget stream that holds no value,
`loadTimeLimit` calls `back()` on the empty vector and has no defined result, so
`main` never reaches its emptiness checks, whatever the subject table; and whenever
`loadTimeLimit` does return on a readable stream, the list has at least 7 entries,
so the check of line 290 cannot fire. -/
theorem main_empty_time_stream {α : Type} [LinearOrderedField α] (RAND_MAX : Nat)
    (rand : Nat → Nat) (exp : α → α) (matrixFile : Option (List (α × α × α × String)))
    (previous : List α) :
    loadTimeLimit previous (some ([] : List α)) = none ∧
    main RAND_MAX rand exp matrixFile (some []) = none ∧
    ∀ values result : List α,
      loadTimeLimit previous (some values) = some result → numDays ≤ result.length := by
  refine ⟨padTimeLimit_nil, ?_, fun values result h => padTimeLimit_length values result h⟩
  unfold main
  have hload : loadTimeLimit ([] : List α) (some ([] : List α)) = none := padTimeLimit_nil
  simp only [hload]

/-- C12: for a non-empty list of `n` parsed values, `loadTimeLimit` returns, when
`n < 7`, a list of exactly 7 entries whose first `n` are the parsed values in order
and whose entries `n..6` are the last parsed value, and when `n ≥ 7` the parsed
values unchanged. -/
theorem loadTimeLimit_padding {α : Type} (previous values : List α) (hne : values ≠ []) :
    (values.length < numDays →
      ∃ padded : List α, loadTimeLimit previous (some values) = some padded ∧
        padded.length = numDays ∧
        (∀ i, i < values.length → padded[i]? = values[i]?) ∧
        (∀ i, values.length ≤ i → i < numDays → padded[i]? = some (values.getLast hne))) ∧
    (numDays ≤ values.length → loadTimeLimit previous (some values) = some values) := by
  refine ⟨fun hlt => ?_, fun hge => padTimeLimit_of_length_ge values hge⟩
  refine ⟨values ++ List.replicate (numDays - values.length) (values.getLast hne),
    padTimeLimit_eq_append_replicate _ values hne rfl, ?_, ?_, ?_⟩
  · rw [List.length_append, List.length_replicate]
    omega
  · intro i hi
    rw [List.getElem?_append_left hi]
  · intro i hge hi
    rw [List.getElem?_append_right hge, List.getElem?_replicate, if_pos (by omega)]

/-- Witness of C12: three parsed values `2 3 5` are padded to `2 3 5 5 5 5 5`. -/
theorem loadTimeLimit_padding_witness :
    loadTimeLimit ([] : List ℚ) (some [2, 3, 5]) = some [2, 3, 5, 5, 5, 5, 5] := by
  obtain ⟨padded, hload, hlen, hfirst, hrest⟩ :=
    (loadTimeLimit_padding ([] : List ℚ) [2, 3, 5] (by simp)).1 (by decide)
  rw [hload]
  have h0 := hfirst 0 (by decide)
  have h1 := hfirst 1 (by decide)
  have h2 := hfirst 2 (by decide)
  have h3 := hrest 3 (by decide) (by decide)
  have h4 := hrest 4 (by decide) (by decide)
  have h5 := hrest 5 (by decide) (by decide)
  have h6 := hrest 6 (by decide) (by decide)
  match padded, hlen, h0, h1, h2, h3, h4, h5, h6 with
  | [a, b, c, d, e, f, g], _, h0, h1, h2, h3, h4, h5, h6 =>
    simp at h0 h1 h2 h3 h4 h5 h6
    subst h0 h1 h2 h3 h4 h5 h6
    rfl

/-! ### Claims on a run of the search -/

theorem initDay_eq_repairDay {α : Type} [LinearOrderedField α] (g : Globals α) (j : Nat)
    (st : Grid α × Nat) :
    initDay g j st
      = (repairDay g.numTask g.dailyTimeLimit (fillDay g j st).plan j, (fillDay g j st).calls) := by
  have htot : (fillDay g j st).totalTime = dayTotal g.numTask (fillDay g j st).plan j :=
    fillLoop_totalTime g j st.1 st.2 g.numTask
  unfold initDay repairDay
  dsimp only
  rw [← htot]
  split_ifs <;> rfl

/-- C13: with `maxIterations = 0`, `simulatedAnnealing` returns exactly the initial
allocation (every day drawn at random, then repaired), and `bestScore` is
`getPlanEvaluation` of that allocation, whatever the subject table, the budgets and
the draws. -/
theorem zero_iterations_return_initial {α : Type} [LinearOrderedField α] (g : Globals α)
    (evaluationMatrix : Grid α) (initialTemp coolingRate : α) :
    simulatedAnnealing g evaluationMatrix 0 initialTemp coolingRate = (initPlan g).1 ∧
    (saRun g evaluationMatrix initialTemp coolingRate 0).bestScore
      = getPlanEvaluation g.exp evaluationMatrix (initPlan g).1 g.numTask ∧
    ∀ (j : Nat) (st : Grid α × Nat),
      (initDay g j st).1 = repairDay g.numTask g.dailyTimeLimit (fillDay g j st).plan j := by
  refine ⟨rfl, rfl, fun j st => ?_⟩
  rw [initDay_eq_repairDay]

/-- Witness of C13 on the end-to-end example of the spec: one subject (1.5, 0.5,
1.5), all budgets 2.0, no iteration. -/
theorem zero_iterations_return_initial_witness :
    simulatedAnnealing exampleGlobals exampleMatrix 0 1000 (999998 / 1000000)
        = (initPlan exampleGlobals).1 ∧
    (saRun exampleGlobals exampleMatrix 1000 (999998 / 1000000) 0).bestScore
      = getPlanEvaluation exampleGlobals.exp exampleMatrix (initPlan exampleGlobals).1 1 :=
  ⟨(zero_iterations_return_initial exampleGlobals exampleMatrix 1000 (999998 / 1000000)).1,
    (zero_iterations_return_initial exampleGlobals exampleMatrix 1000 (999998 / 1000000)).2.1⟩

theorem saStep_of_rejected {α : Type} [LinearOrderedField α] (g : Globals α)
    (evaluationMatrix : Grid α) (coolingRate : α) (s : SAState α)
    (h : stepAccepts g evaluationMatrix s = false) :
    (saStep g evaluationMatrix coolingRate s).currentPlan = s.currentPlan ∧
      (saStep g evaluationMatrix coolingRate s).currentScore = s.currentScore := by
  unfold stepAccepts candidateScore at h
  rw [saStep_currentPlan, saStep_currentScore, h]
  exact ⟨rfl, rfl⟩

/-- C19: one iteration leaves every cell of the current plan outside the chosen day
unchanged, whether the candidate is accepted or not; and when the candidate is
rejected, the whole current plan and `currentScore` are unchanged. -/
theorem iteration_is_local {α : Type} [LinearOrderedField α] (g : Globals α)
    (evaluationMatrix : Grid α) (coolingRate : α) (s : SAState α) :
    (∀ i d : Nat, d ≠ chosenDay g s →
      cell (saStep g evaluationMatrix coolingRate s).currentPlan i d
        = cell s.currentPlan i d) ∧
    (stepAccepts g evaluationMatrix s = false →
      (saStep g evaluationMatrix coolingRate s).currentPlan = s.currentPlan ∧
      (saStep g evaluationMatrix coolingRate s).currentScore = s.currentScore) := by
  refine ⟨fun i d hd => ?_, saStep_of_rejected g evaluationMatrix coolingRate s⟩
  rw [saStep_currentPlan]
  split_ifs
  · exact cell_candidate_of_ne g s i d hd
  · rfl

/-- C20: throughout the run `bestScore ≥ currentScore`, `bestScore` is
`getPlanEvaluation` of `bestPlan`, and `bestScore` is the maximum of the initial
score and the scores of all the candidates evaluated so far. -/
theorem bestScore_is_running_maximum {α : Type} [LinearOrderedField α] (g : Globals α)
    (evaluationMatrix : Grid α) (initialTemp coolingRate : α) (k : Nat) :
    (saRun g evaluationMatrix initialTemp coolingRate k).currentScore
      ≤ (saRun g evaluationMatrix initialTemp coolingRate k).bestScore ∧
    (saRun g evaluationMatrix initialTemp coolingRate k).bestScore
      = getPlanEvaluation g.exp evaluationMatrix
          (saRun g evaluationMatrix initialTemp coolingRate k).bestPlan g.numTask ∧
    (saRun g evaluationMatrix initialTemp coolingRate k).bestScore
      = bestSoFar g evaluationMatrix initialTemp coolingRate k := by
  induction k with
  | zero => exact ⟨le_refl _, rfl, rfl⟩
  | succ k ih =>
    obtain ⟨hle, heval, hmax⟩ := ih
    have hbest : bestSoFar g evaluationMatrix initialTemp coolingRate (k + 1)
        = max (saRun g evaluationMatrix initialTemp coolingRate k).bestScore
            (getPlanEvaluation g.exp evaluationMatrix
              (candidate g (saRun g evaluationMatrix initialTemp coolingRate k)) g.numTask) := by
      rw [hmax]
      rfl
    rw [hbest, saRun_succ, saStep_currentScore, saStep_bestScore, saStep_bestPlan]
    generalize saRun g evaluationMatrix initialTemp coolingRate k = s at hle heval
    by_cases hacc : accepts g.exp
        (getPlanEvaluation g.exp evaluationMatrix (candidate g s) g.numTask - s.currentScore)
        s.temperature ((g.rand (s.calls + 3) : α) / (g.RAND_MAX : α)) = true
    · rw [if_pos hacc, if_pos hacc, if_pos hacc]
      by_cases hgt : getPlanEvaluation g.exp evaluationMatrix (candidate g s) g.numTask
          > s.bestScore
      · rw [if_pos hgt, if_pos hgt]
        exact ⟨le_refl _, rfl, (max_eq_right hgt.le).symm⟩
      · rw [if_neg hgt, if_neg hgt]
        exact ⟨not_lt.mp hgt, heval, (max_eq_left (not_lt.mp hgt)).symm⟩
    · rw [if_neg hacc, if_neg hacc, if_neg hacc]
      refine ⟨hle, heval, (max_eq_left ?_).symm⟩
      have hdiff : ¬ getPlanEvaluation g.exp evaluationMatrix (candidate g s) g.numTask
          - s.currentScore > 0 := by
        intro hpos
        apply hacc
        unfold accepts
        exact decide_eq_true (Or.inl hpos)
      have hle2 : getPlanEvaluation g.exp evaluationMatrix (candidate g s) g.numTask
          ≤ s.currentScore := sub_nonpos.mp (not_lt.mp hdiff)
      exact hle2.trans hle

/-! ### Non-negative cells -/

theorem uniform_nonneg {α : Type} [LinearOrderedField α] (R r : Nat) :
    (0 : α) ≤ (r : α) / (R : α) :=
  div_nonneg (Nat.cast_nonneg r) (Nat.cast_nonneg R)

theorem dayNonneg_setCell {α : Type} [LinearOrderedField α] (d : Nat) (p : Grid α)
    (i j : Nat) (v : α) (hp : DayNonneg d p) (hv : j = d → 0 ≤ v) :
    DayNonneg d (setCell p i j v) := by
  intro a
  rw [cell_setCell]
  split_ifs with h
  · exact hv h.2.1.symm
  · exact hp a

theorem dayNonneg_of_cell_eq {α : Type} [LinearOrderedField α] (d : Nat) (p q : Grid α)
    (hp : DayNonneg d p) (h : ∀ a, cell q a d = cell p a d) : DayNonneg d q := by
  intro a
  rw [h a]
  exact hp a

theorem dayNonneg_scaleDay {α : Type} [LinearOrderedField α] (d n : Nat) (p : Grid α)
    (j : Nat) (s : α) (hp : DayNonneg d p) (hs : j = d → 0 ≤ s) :
    DayNonneg d (scaleDay n p j s) := by
  intro a
  rw [cell_scaleDay]
  split_ifs with h
  · rw [← h.1]
    exact mul_nonneg (hp a) (hs h.1.symm)
  · exact hp a

theorem dayNonneg_repairDay {α : Type} [LinearOrderedField α] (d n : Nat) (limits : List α)
    (p : Grid α) (j : Nat) (hp : DayNonneg d p) (hb : 0 ≤ limits.getD d 0) :
    DayNonneg d (repairDay n limits p j) := by
  unfold repairDay
  dsimp only
  split_ifs with hgt
  · refine dayNonneg_scaleDay d n p j _ hp (fun hj => ?_)
    subst hj
    exact div_nonneg hb (hb.trans hgt.le)
  · exact hp

theorem dayNonneg_fillLoop {α : Type} [LinearOrderedField α] (g : Globals α) (d j m : Nat)
    (s0 : FillState α) (hp : DayNonneg d s0.plan) :
    DayNonneg d (forLoop m (fillStep g j) s0).plan := by
  induction m with
  | zero => exact hp
  | succ m ih =>
    rw [forLoop_succ, fillStep_plan]
    exact dayNonneg_setCell d _ m j _ ih (fun _ => uniform_nonneg _ _)

theorem dayNonneg_initDay {α : Type} [LinearOrderedField α] (g : Globals α) (d j : Nat)
    (st : Grid α × Nat) (hp : DayNonneg d st.1) (hb : 0 ≤ g.dailyTimeLimit.getD d 0) :
    DayNonneg d (initDay g j st).1 := by
  rw [initDay_eq_repairDay]
  exact dayNonneg_repairDay d _ _ _ j (dayNonneg_fillLoop g d j _ _ hp) hb

theorem cell_replicate_zero {α : Type} [LinearOrderedField α] (n m a b : Nat) :
    cell (List.replicate n (List.replicate m (0 : α))) a b = 0 := by
  unfold cell
  simp only [List.getD_eq_getElem?_getD, List.getElem?_replicate]
  by_cases ha : a < n
  · by_cases hb : b < m
    · simp [ha, hb]
    · simp [ha, hb]
  · simp [ha]

theorem dayNonneg_initLoop {α : Type} [LinearOrderedField α] (g : Globals α) (d : Nat)
    (hb : 0 ≤ g.dailyTimeLimit.getD d 0) (J : Nat) :
    DayNonneg d
      (forLoop J (initDay g) (List.replicate g.numTask (List.replicate numDays 0), 0)).1 := by
  induction J with
  | zero =>
    intro a
    exact le_of_eq (cell_replicate_zero _ _ a d).symm
  | succ J ih =>
    rw [forLoop_succ]
    exact dayNonneg_initDay g d J _ ih hb

theorem dayNonneg_perturbed {α : Type} [LinearOrderedField α] (g : Globals α) (d : Nat)
    (s : SAState α) (hp : DayNonneg d s.currentPlan) : DayNonneg d (perturbed g s) := by
  intro a
  unfold perturbed
  dsimp only
  split_ifs with hneg
  · rw [cell_setCell]
    split_ifs with hin
    · exact le_refl 0
    · by_cases hat : a = g.rand s.calls % g.numTask ∧ d = g.rand (s.calls + 1) % numDays
      · exfalso
        obtain ⟨rfl, rfl⟩ := hat
        apply hin
        refine ⟨rfl, rfl, ?_⟩
        by_contra hout
        rw [cell_eq_zero_of_not_inBounds _ _ _ hout] at hneg
        exact lt_irrefl 0 hneg
      · rw [cell_setCell, if_neg (fun h => hat ⟨h.1, h.2.1⟩)]
        exact hp a
  · by_cases hat : a = g.rand s.calls % g.numTask ∧ d = g.rand (s.calls + 1) % numDays
    · obtain ⟨rfl, rfl⟩ := hat
      exact not_lt.mp hneg
    · rw [cell_setCell, if_neg (fun h => hat ⟨h.1, h.2.1⟩)]
      exact hp a

theorem dayNonneg_candidate {α : Type} [LinearOrderedField α] (g : Globals α) (d : Nat)
    (s : SAState α) (hp : DayNonneg d s.currentPlan) (hb : 0 ≤ g.dailyTimeLimit.getD d 0) :
    DayNonneg d (candidate g s) :=
  dayNonneg_repairDay d _ _ _ _ (dayNonneg_perturbed g d s hp) hb

theorem dayNonneg_saRun {α : Type} [LinearOrderedField α] (g : Globals α)
    (evaluationMatrix : Grid α) (initialTemp coolingRate : α) (d : Nat)
    (hb : 0 ≤ g.dailyTimeLimit.getD d 0) (k : Nat) :
    DayNonneg d (saRun g evaluationMatrix initialTemp coolingRate k).currentPlan ∧
      DayNonneg d (saRun g evaluationMatrix initialTemp coolingRate k).bestPlan := by
  induction k with
  | zero => exact ⟨dayNonneg_initLoop g d hb numDays, dayNonneg_initLoop g d hb numDays⟩
  | succ k ih =>
    have hc := dayNonneg_candidate g d _ ih.1 hb
    rw [saRun_succ, saStep_currentPlan, saStep_bestPlan]
    split_ifs
    · exact ⟨hc, hc⟩
    · exact ⟨hc, ih.2⟩
    · exact ih

/-- C15: with 7 non-negative day budgets, after initialization and after every
iteration every cell of the current plan, of the best plan, and of the perturbed
plan handed to the repair step of the next iteration is non-negative, whatever the
subject table and the draws. -/
theorem nonnegative_invariant {α : Type} [LinearOrderedField α] (g : Globals α)
    (evaluationMatrix : Grid α) (initialTemp coolingRate : α)
    (_hlen : g.dailyTimeLimit.length = numDays) (hb : ∀ x ∈ g.dailyTimeLimit, 0 ≤ x)
    (k : Nat) :
    NonNegative (saRun g evaluationMatrix initialTemp coolingRate k).currentPlan ∧
    NonNegative (saRun g evaluationMatrix initialTemp coolingRate k).bestPlan ∧
    NonNegative (perturbed g (saRun g evaluationMatrix initialTemp coolingRate k)) := by
  have hrun := fun d => dayNonneg_saRun g evaluationMatrix initialTemp coolingRate d
    (getD_nonneg_of_forall _ hb d) k
  exact ⟨fun i j => (hrun j).1 i, fun i j => (hrun j).2 i,
    fun i j => dayNonneg_perturbed g j _ (hrun j).1 i⟩

/-- Witness of C15 on the sample run, after 200 iterations. -/
theorem nonnegative_invariant_witness :
    NonNegative (saRun sampleGlobals sampleMatrix 1000 (999998 / 1000000) 200).currentPlan ∧
    NonNegative (saRun sampleGlobals sampleMatrix 1000 (999998 / 1000000) 200).bestPlan ∧
    NonNegative (perturbed sampleGlobals
      (saRun sampleGlobals sampleMatrix 1000 (999998 / 1000000) 200)) :=
  nonnegative_invariant sampleGlobals sampleMatrix 1000 (999998 / 1000000) (by decide)
    (by simp [sampleGlobals]) 200

/-! ### A day with budget zero -/

theorem engine_draws_are_uniformVariate {α : Type} [LinearOrderedField α] (g : Globals α)
    (evaluationMatrix : Grid α) (j i : Nat) (f : FillState α) (s : SAState α) :
    (fillStep g j i f).plan
      = setCell f.plan i j (uniformVariate g.RAND_MAX (g.rand f.calls)) ∧
    stepAccepts g evaluationMatrix s
      = accepts g.exp (candidateScore g evaluationMatrix s - s.currentScore) s.temperature
          (uniformVariate g.RAND_MAX (g.rand (s.calls + 3))) :=
  ⟨rfl, rfl⟩

theorem uniformVariate_at_RAND_MAX {α : Type} [LinearOrderedField α] (R : Nat) (hR : 0 < R) :
    uniformVariate R R = (1 : α) := by
  unfold uniformVariate
  exact div_self (Nat.cast_ne_zero.mpr hR.ne.symm)

/-- Refutation of C16 as stated, at `RAND_MAX = 32767` and `r = RAND_MAX`, a value
`rand()` can return: the variate is exactly `1`, so it is not below `1`. -/
theorem uniformVariate_counterexample :
    (32767 : Nat) ≤ 32767 ∧
      ¬ ((0 : ℚ) ≤ uniformVariate 32767 32767 ∧ uniformVariate 32767 32767 < (1 : ℚ)) := by
  refine ⟨le_refl _, fun h => ?_⟩
  rw [uniformVariate_at_RAND_MAX 32767 (by decide)] at h
  exact lt_irrefl 1 h.2

/-- C16 as amended: for every value `r` with `0 ≤ r ≤ RAND_MAX` (and `RAND_MAX > 0`),
the variate `r / RAND_MAX` lies in the closed interval `[0, 1]`. -/
theorem uniformVariate_range {α : Type} [LinearOrderedField α] (RAND_MAX r : Nat)
    (hR : 0 < RAND_MAX) (hr : r ≤ RAND_MAX) :
    (0 : α) ≤ uniformVariate RAND_MAX r ∧ uniformVariate RAND_MAX r ≤ (1 : α) := by
  have hpos : (0 : α) < (RAND_MAX : α) := Nat.cast_pos.mpr hR
  unfold uniformVariate
  refine ⟨uniform_nonneg RAND_MAX r, ?_⟩
  rw [div_le_one hpos]
  exact Nat.cast_le.mpr hr

/-- Witness of the amended C16 at `RAND_MAX = 32767`, `r = 12345`. -/
theorem uniformVariate_range_witness :
    (0 : ℚ) ≤ uniformVariate 32767 12345 ∧ uniformVariate 32767 12345 ≤ (1 : ℚ) :=
  uniformVariate_range 32767 12345 (by decide) (by decide)

theorem accepts_iff {α : Type} [LinearOrderedField α] (exp : α → α)
    (scoreDiff temperature u : α) :
    accepts exp scoreDiff temperature u = true
      ↔ scoreDiff > 0 ∨ exp (scoreDiff / temperature) > u := by
  unfold accepts
  exact decide_eq_true_iff

/-- C18: with the real exponential, a worsening candidate (`scoreDiff < 0`) accepted
at a temperature `T1 > 0` is accepted at every temperature `T2 ≥ T1` for the same
draw; a candidate accepted with difference `d1 < 0` at `T > 0` stays accepted for
every difference `d2 ≥ d1` at the same temperature and draw; and every candidate
with `scoreDiff > 0` is accepted whatever the temperature and the draw. -/
theorem metropolis_acceptance_monotone :
    (∀ d T1 T2 u : ℝ, d < 0 → 0 < T1 → T1 ≤ T2 →
      accepts Real.exp d T1 u = true → accepts Real.exp d T2 u = true) ∧
    (∀ d1 d2 T u : ℝ, d1 < 0 → 0 < T → d1 ≤ d2 →
      accepts Real.exp d1 T u = true → accepts Real.exp d2 T u = true) ∧
    (∀ d T u : ℝ, 0 < d → accepts Real.exp d T u = true) := by
  refine ⟨?_, ?_, ?_⟩
  · intro d T1 T2 u hd hT1 h12 hacc
    rw [accepts_iff] at hacc ⊢
    rcases hacc with hpos | hexp
    · exact absurd hpos (not_lt.mpr hd.le)
    · right
      have hquot : -d / T2 ≤ -d / T1 :=
        div_le_div_of_nonneg_left (neg_nonneg.mpr hd.le) hT1 h12
      rw [neg_div, neg_div] at hquot
      have hle : d / T1 ≤ d / T2 := neg_le_neg_iff.mp hquot
      exact lt_of_lt_of_le hexp (Real.exp_le_exp.mpr hle)
  · intro d1 d2 T u hd1 hT h12 hacc
    rw [accepts_iff] at hacc ⊢
    rcases hacc with hpos | hexp
    · exact absurd hpos (not_lt.mpr hd1.le)
    · right
      have hle : d1 / T ≤ d2 / T := div_le_div_of_nonneg_right h12 hT.le
      exact lt_of_lt_of_le hexp (Real.exp_le_exp.mpr hle)
  · intro d T u hd
    rw [accepts_iff]
    exact Or.inl hd

/-- Witness of C18: a candidate worse by 1, accepted at temperature 1 against the
draw `0`, is accepted at temperature 2 and with difference `-1/2`; an improving
candidate is accepted against any draw. -/
theorem metropolis_acceptance_monotone_witness :
    accepts Real.exp (-1) 2 0 = true ∧ accepts Real.exp (-1 / 2) 1 0 = true ∧
      accepts Real.exp 1 5 (1 / 2) = true := by
  have hbase : accepts Real.exp (-1) 1 0 = true :=
    (accepts_iff Real.exp (-1) 1 0).mpr (Or.inr (Real.exp_pos _))
  exact ⟨metropolis_acceptance_monotone.1 (-1) 1 2 0 (by norm_num) (by norm_num)
      (by norm_num) hbase,
    metropolis_acceptance_monotone.2.1 (-1) (-1 / 2) 1 0 (by norm_num) (by norm_num)
      (by norm_num) hbase,
    metropolis_acceptance_monotone.2.2 1 5 (1 / 2) (by norm_num)⟩

/-! ### The checked engine never fails -/

theorem divC_eq_some {α : Type} [LinearOrderedField α] (a b : α) (hb : b ≠ 0) :
    divC a b = some (a / b) := by
  unfold divC
  rw [if_neg hb]

theorem modC_eq_some (a n : Nat) (hn : 0 < n) : modC a n = some (a % n) := by
  unfold modC
  rw [if_neg hn.ne.symm]

theorem cellC_eq_some {α : Type} [Zero α] (p : Grid α) (i j : Nat) (hi : i < p.length)
    (hj : j < (p.getD i []).length) : cellC p i j = some (cell p i j) := by
  unfold cellC cell
  rw [List.getD_eq_getElem p [] hi] at hj ⊢
  rw [List.getElem?_eq_getElem hi, Option.some_bind, List.getElem?_eq_getElem hj,
    List.getD_eq_getElem _ 0 hj]

theorem setCellC_eq_some {α : Type} (p : Grid α) (i j : Nat) (v : α) (hi : i < p.length)
    (hj : j < (p.getD i []).length) : setCellC p i j v = some (setCell p i j v) := by
  unfold setCellC setCell
  rw [List.getD_eq_getElem p [] hi] at hj ⊢
  rw [List.getElem?_eq_getElem hi, Option.some_bind, if_pos hj]

theorem row_length_of_wellShaped {α : Type} (n : Nat) (p : Grid α) (i : Nat)
    (hp : WellShaped n p) (hi : i < n) : i < p.length ∧ (p.getD i []).length = numDays := by
  have hlen : i < p.length := by rw [hp.1]; exact hi
  refine ⟨hlen, ?_⟩
  rw [List.getD_eq_getElem p [] hlen]
  exact hp.2 _ (List.getElem_mem hlen)

theorem cellC_of_wellShaped {α : Type} [Zero α] (n : Nat) (p : Grid α) (i j : Nat)
    (hp : WellShaped n p) (hi : i < n) (hj : j < numDays) :
    cellC p i j = some (cell p i j) := by
  obtain ⟨hlen, hrow⟩ := row_length_of_wellShaped n p i hp hi
  exact cellC_eq_some p i j hlen (by rw [hrow]; exact hj)

theorem setCellC_of_wellShaped {α : Type} (n : Nat) (p : Grid α) (i j : Nat) (v : α)
    (hp : WellShaped n p) (hi : i < n) (hj : j < numDays) :
    setCellC p i j v = some (setCell p i j v) := by
  obtain ⟨hlen, hrow⟩ := row_length_of_wellShaped n p i hp hi
  exact setCellC_eq_some p i j v hlen (by rw [hrow]; exact hj)

theorem forLoopC_eq_some {σ : Type} (n : Nat) (bodyC : Nat → σ → Option σ)
    (body : Nat → σ → σ) (Inv : σ → Prop) (s : σ) (h0 : Inv s)
    (hstep : ∀ i, i < n → ∀ t, Inv t → bodyC i t = some (body i t) ∧ Inv (body i t)) :
    forLoopC n bodyC s = some (forLoop n body s) ∧ Inv (forLoop n body s) := by
  induction n with
  | zero => exact ⟨rfl, h0⟩
  | succ n ih =>
    obtain ⟨heq, hinv⟩ := ih (fun i hi => hstep i (Nat.lt_succ_of_lt hi))
    obtain ⟨hb, hi2⟩ := hstep n (Nat.lt_succ_self n) _ hinv
    refine ⟨?_, hi2⟩
    show (forLoopC n bodyC s).bind (bodyC n) = some (body n (forLoop n body s))
    rw [heq, Option.some_bind, hb]

theorem activationC_eq_some {α : Type} [LinearOrderedField α] (k1 k2 t1 t : α)
    (h1 : t1 ≠ 0) : activationC k1 k2 t1 t = some (activation k1 k2 t1 t) := by
  unfold activationC activation
  have h10 : (10 : α) ≠ 0 := by norm_num
  split_ifs
  · rfl
  · rw [divC_eq_some k1 t1 h1, Option.some_bind]
  · rw [divC_eq_some _ t1 h1, Option.some_bind, divC_eq_some _ 10 h10, Option.some_bind]

theorem table_row_of_valid {α : Type} [LinearOrderedField α] (n : Nat) (E : Grid α)
    (hE : ValidTable n E) (i : Nat) (hi : i < n) :
    i < E.length ∧ (E.getD i []).length = 3 ∧ cell E i 2 ≠ 0 := by
  have hlen : i < E.length := by rw [hE.1]; exact hi
  obtain ⟨w, m, p, hrow, _, hm, hp⟩ := hE.2 _ (List.getElem_mem hlen)
  have hget : E.getD i [] = [w, m, p] := by
    rw [List.getD_eq_getElem E [] hlen]
    exact hrow
  refine ⟨hlen, by rw [hget]; rfl, ?_⟩
  have hcell : cell E i 2 = p := by
    unfold cell
    rw [hget]
    rfl
  rw [hcell]
  exact (lt_of_le_of_lt hm hp).ne.symm

theorem cellC_table {α : Type} [LinearOrderedField α] (n : Nat) (E : Grid α)
    (hE : ValidTable n E) (i j : Nat) (hi : i < n) (hj : j < 3) :
    cellC E i j = some (cell E i j) := by
  obtain ⟨hlen, hrow, _⟩ := table_row_of_valid n E hE i hi
  exact cellC_eq_some E i j hlen (by rw [hrow]; exact hj)

theorem bind_eq_some_of {σ τ : Type} (x : Option σ) (a : σ) (f : σ → Option τ) (b : τ)
    (hx : x = some a) (hf : f a = some b) : x.bind f = some b := by
  rw [hx, Option.some_bind, hf]

theorem getPlanEvaluationC_eq_some {α : Type} [LinearOrderedField α] (exp : α → α)
    (E plan : Grid α) (n : Nat) (hn : 1 ≤ n) (hE : ValidTable n E) (hp : WellShaped n plan)
    (hexp : ∀ x, 0 < exp x) :
    getPlanEvaluationC exp E plan n = some (getPlanEvaluation exp E plan n) := by
  have hN : (n : α) ≠ 0 := Nat.cast_ne_zero.mpr (by omega)
  have hden : ∀ x : α, (1 : α) + exp x ≠ 0 := fun x =>
    (add_pos one_pos (hexp x)).ne.symm
  unfold getPlanEvaluationC getPlanEvaluation
  dsimp only
  refine bind_eq_some_of _ _ _ _
    (And.left (forLoopC_eq_some n _ ?body (fun _ => True) _ trivial ?hstep)) ?hfin
  case hfin => exact rfl
  case hstep =>
    intro i hi acc _
    refine ⟨?_, trivial⟩
    obtain ⟨_, _, hplateau⟩ := table_row_of_valid n E hE i hi
    refine bind_eq_some_of _ _ _ _
      (And.left (forLoopC_eq_some numDays _ ?inner (fun _ => True) _ trivial ?hinner)) ?hrest
    case hrest =>
      dsimp only
      rw [divC_eq_some _ _ (hden _), Option.some_bind, divC_eq_some _ _ hN, Option.some_bind]
      exact rfl
    case hinner =>
      intro d hd st _
      refine ⟨?_, trivial⟩
      rw [cellC_table n E hE i 0 hi (by decide), Option.some_bind,
        cellC_table n E hE i 1 hi (by decide), Option.some_bind,
        cellC_table n E hE i 2 hi (by decide), Option.some_bind,
        cellC_of_wellShaped n plan i d hp hi hd, Option.some_bind,
        activationC_eq_some _ _ _ _ hplateau, Option.some_bind]

theorem dayTotalC_eq_some {α : Type} [LinearOrderedField α] (n : Nat) (p : Grid α) (d : Nat)
    (hp : WellShaped n p) (hd : d < numDays) : dayTotalC n p d = some (dayTotal n p d) := by
  unfold dayTotalC dayTotal
  exact And.left (forLoopC_eq_some n _ _ (fun _ => True) 0 trivial (fun i hi t _ =>
    ⟨by rw [cellC_of_wellShaped n p i d hp hi hd, Option.some_bind], trivial⟩))

theorem scaleDayC_eq_some {α : Type} [LinearOrderedField α] (n : Nat) (p : Grid α) (d : Nat)
    (s : α) (hp : WellShaped n p) (hd : d < numDays) :
    scaleDayC n p d s = some (scaleDay n p d s) := by
  unfold scaleDayC scaleDay
  exact And.left (forLoopC_eq_some n _ _ (fun q => WellShaped n q) p hp (fun i hi q hq =>
    ⟨by rw [cellC_of_wellShaped n q i d hq hi hd, Option.some_bind,
        setCellC_of_wellShaped n q i d _ hq hi hd],
      wellShaped_setCell n q i d _ hq⟩))

theorem limit_of_valid {α : Type} [LinearOrderedField α] (limits : List α)
    (hL : ValidLimits limits) (d : Nat) (hd : d < numDays) :
    limits[d]? = some (limits.getD d 0) ∧ 0 ≤ limits.getD d 0 := by
  obtain ⟨limit, hget, hnn⟩ := hL d hd
  have hD : limits.getD d 0 = limit := by
    rw [List.getD_eq_getElem?_getD, hget]
    rfl
  rw [hD]
  exact ⟨hget, hnn⟩

theorem repairDayC_eq_some {α : Type} [LinearOrderedField α] (n : Nat) (limits : List α)
    (p : Grid α) (d : Nat) (hp : WellShaped n p) (hd : d < numDays)
    (hL : ValidLimits limits) :
    repairDayC n limits p d = some (repairDay n limits p d) := by
  obtain ⟨hget, hnn⟩ := limit_of_valid limits hL d hd
  unfold repairDayC repairDay
  dsimp only
  rw [dayTotalC_eq_some n p d hp hd, Option.some_bind, hget, Option.some_bind]
  split_ifs with hgt
  · rw [divC_eq_some _ _ (lt_of_le_of_lt hnn hgt).ne.symm, Option.some_bind,
      scaleDayC_eq_some n p d _ hp hd]
  · rfl

theorem fillStepC_eq_some {α : Type} [LinearOrderedField α] (g : Globals α) (j i : Nat)
    (s : FillState α) (hR : 0 < g.RAND_MAX) (hp : WellShaped g.numTask s.plan)
    (hi : i < g.numTask) (hj : j < numDays) :
    fillStepC g j i s = some (fillStep g j i s) := by
  have hR0 : (g.RAND_MAX : α) ≠ 0 := Nat.cast_ne_zero.mpr hR.ne.symm
  unfold fillStepC fillStep
  dsimp only
  rw [divC_eq_some _ _ hR0, Option.some_bind,
    setCellC_of_wellShaped g.numTask s.plan i j _ hp hi hj, Option.some_bind,
    cellC_of_wellShaped g.numTask _ i j (wellShaped_setCell g.numTask s.plan i j _ hp) hi hj,
    Option.some_bind]

theorem fillLoopC_eq_some {α : Type} [LinearOrderedField α] (g : Globals α) (j : Nat)
    (s0 : FillState α) (hR : 0 < g.RAND_MAX) (hp : WellShaped g.numTask s0.plan)
    (hj : j < numDays) :
    forLoopC g.numTask (fillStepC g j) s0 = some (forLoop g.numTask (fillStep g j) s0) :=
  And.left (forLoopC_eq_some g.numTask _ _ (fun s => WellShaped g.numTask s.plan) s0 hp
    (fun i hi s hs => ⟨fillStepC_eq_some g j i s hR hs hi hj,
      wellShaped_setCell g.numTask s.plan i j _ hs⟩))

theorem ne_zero_of_gt_nonneg {α : Type} [LinearOrderedField α] (a b : α)
    (hb : 0 ≤ b) (hgt : a > b) : a ≠ 0 :=
  (lt_of_le_of_lt hb hgt).ne.symm

theorem initDayC_eq_some {α : Type} [LinearOrderedField α] (g : Globals α) (j : Nat)
    (st : Grid α × Nat) (hR : 0 < g.RAND_MAX) (hp : WellShaped g.numTask st.1)
    (hj : j < numDays) (hL : ValidLimits g.dailyTimeLimit) :
    initDayC g j st = some (initDay g j st) := by
  obtain ⟨hget, hnn⟩ := limit_of_valid g.dailyTimeLimit hL j hj
  have hshape : WellShaped g.numTask (forLoop g.numTask (fillStep g j)
      (FillState.mk st.1 st.2 0)).plan := wellShaped_fillLoop g g.numTask j g.numTask _ hp
  unfold initDayC initDay fillDay
  dsimp only
  rw [fillLoopC_eq_some g j _ hR hp hj, Option.some_bind, hget, Option.some_bind]
  split_ifs with hgt
  · rw [divC_eq_some _ _ (ne_zero_of_gt_nonneg _ _ hnn hgt), Option.some_bind,
      scaleDayC_eq_some g.numTask _ j _ hshape hj, Option.some_bind]
  · rfl

theorem initLoopC_eq_some {α : Type} [LinearOrderedField α] (g : Globals α)
    (st : Grid α × Nat) (hR : 0 < g.RAND_MAX) (hp : WellShaped g.numTask st.1)
    (hL : ValidLimits g.dailyTimeLimit) (J : Nat) (hJ : J ≤ numDays) :
    forLoopC J (initDayC g) st = some (forLoop J (initDay g) st) :=
  And.left (forLoopC_eq_some J _ _ (fun s => WellShaped g.numTask s.1) st hp
    (fun j hj s hs => ⟨initDayC_eq_some g j s hR hs (lt_of_lt_of_le hj hJ) hL,
      wellShaped_initDay g g.numTask j s hs⟩))

theorem initPlanC_eq_some {α : Type} [LinearOrderedField α] (g : Globals α)
    (hR : 0 < g.RAND_MAX) (hL : ValidLimits g.dailyTimeLimit) :
    initPlanC g = some (initPlan g) := by
  unfold initPlanC initPlan
  refine initLoopC_eq_some g _ hR ?_ hL numDays (le_refl _)
  exact ⟨List.length_replicate _ _, fun row hrow => by
    rw [List.eq_of_mem_replicate hrow, List.length_replicate]⟩

theorem saInitC_eq_some {α : Type} [LinearOrderedField α] (g : Globals α) (E : Grid α)
    (initialTemp : α) (hn : 1 ≤ g.numTask) (hE : ValidTable g.numTask E)
    (hL : ValidLimits g.dailyTimeLimit) (hR : 0 < g.RAND_MAX) (hexp : ∀ x, 0 < g.exp x) :
    saInitC g E initialTemp = some (saInit g E initialTemp) := by
  unfold saInitC saInit
  dsimp only
  rw [initPlanC_eq_some g hR hL, Option.some_bind,
    getPlanEvaluationC_eq_some g.exp E _ g.numTask hn hE (wellShaped_initPlan g) hexp,
    Option.some_bind]

theorem candidateC_eq_some {α : Type} [LinearOrderedField α] (g : Globals α) (s : SAState α)
    (hn : 1 ≤ g.numTask) (hL : ValidLimits g.dailyTimeLimit) (hR : 0 < g.RAND_MAX)
    (hp : WellShaped g.numTask s.currentPlan) : candidateC g s = some (candidate g s) := by
  have hR0 : (g.RAND_MAX : α) ≠ 0 := Nat.cast_ne_zero.mpr hR.ne.symm
  have ht : g.rand s.calls % g.numTask < g.numTask := Nat.mod_lt _ hn
  have hd : g.rand (s.calls + 1) % numDays < numDays := Nat.mod_lt _ (by decide)
  have hbumped := fun v : α => wellShaped_setCell g.numTask s.currentPlan
    (g.rand s.calls % g.numTask) (g.rand (s.calls + 1) % numDays) v hp
  unfold candidateC candidate perturbed
  dsimp only
  rw [modC_eq_some _ _ hn, Option.some_bind, modC_eq_some _ numDays (by decide),
    Option.some_bind, divC_eq_some _ _ hR0, Option.some_bind,
    cellC_of_wellShaped g.numTask _ _ _ hp ht hd, Option.some_bind,
    setCellC_of_wellShaped g.numTask _ _ _ _ hp ht hd, Option.some_bind,
    cellC_of_wellShaped g.numTask _ _ _ (hbumped _) ht hd, Option.some_bind]
  split_ifs with hneg
  · rw [setCellC_of_wellShaped g.numTask _ _ _ _ (hbumped _) ht hd, Option.some_bind,
      repairDayC_eq_some g.numTask _ _ _
        (wellShaped_setCell g.numTask _ _ _ _ (hbumped _)) hd hL]
  · rw [Option.some_bind, repairDayC_eq_some g.numTask _ _ _ (hbumped _) hd hL]

theorem acceptsC_eq_some {α : Type} [LinearOrderedField α] (g : Globals α) (s : SAState α)
    (scoreDiff : α) (hT : s.temperature ≠ 0) (hR : 0 < g.RAND_MAX) :
    acceptsC g s scoreDiff
      = some (accepts g.exp scoreDiff s.temperature
          ((g.rand (s.calls + 3) : α) / (g.RAND_MAX : α))) := by
  have hR0 : (g.RAND_MAX : α) ≠ 0 := Nat.cast_ne_zero.mpr hR.ne.symm
  unfold acceptsC accepts
  split_ifs with hpos
  · simp [hpos]
  · rw [divC_eq_some _ _ hT, Option.some_bind, divC_eq_some _ _ hR0, Option.some_bind]
    simp [hpos]

theorem saStepC_eq_some {α : Type} [LinearOrderedField α] (g : Globals α) (E : Grid α)
    (coolingRate : α) (s : SAState α) (hn : 1 ≤ g.numTask) (hE : ValidTable g.numTask E)
    (hL : ValidLimits g.dailyTimeLimit) (hR : 0 < g.RAND_MAX) (hexp : ∀ x, 0 < g.exp x)
    (hp : WellShaped g.numTask s.currentPlan) (hT : s.temperature ≠ 0) :
    saStepC g E coolingRate s = some (saStep g E coolingRate s) := by
  unfold saStepC saStep
  dsimp only
  rw [candidateC_eq_some g s hn hL hR hp, Option.some_bind,
    getPlanEvaluationC_eq_some g.exp E _ g.numTask hn hE (wellShaped_candidate g s hp) hexp,
    Option.some_bind, acceptsC_eq_some g s _ hT hR, Option.some_bind]
  split_ifs <;> rfl

theorem saRun_temperature_pos {α : Type} [LinearOrderedField α] (g : Globals α) (E : Grid α)
    (initialTemp coolingRate : α) (hT : 0 < initialTemp) (hc : 0 < coolingRate) (k : Nat) :
    0 < (saRun g E initialTemp coolingRate k).temperature := by
  induction k with
  | zero => exact hT
  | succ k ih =>
    rw [saRun_succ, saStep_temperature]
    exact mul_pos ih hc

theorem saRunC_eq_some {α : Type} [LinearOrderedField α] (g : Globals α) (E : Grid α)
    (initialTemp coolingRate : α) (hn : 1 ≤ g.numTask) (hE : ValidTable g.numTask E)
    (hL : ValidLimits g.dailyTimeLimit) (hR : 0 < g.RAND_MAX) (hexp : ∀ x, 0 < g.exp x)
    (hT : 0 < initialTemp) (hc : 0 < coolingRate) (k : Nat) :
    saRunC g E initialTemp coolingRate k = some (saRun g E initialTemp coolingRate k) := by
  unfold saRunC
  rw [saInitC_eq_some g E initialTemp hn hE hL hR hexp, Option.some_bind]
  induction k with
  | zero => rfl
  | succ k ih =>
    show (forLoopC k (fun _ s => saStepC g E coolingRate s) (saInit g E initialTemp)).bind
      (fun s => saStepC g E coolingRate s) = some (saRun g E initialTemp coolingRate (k + 1))
    rw [ih, Option.some_bind, saRun_succ]
    exact saStepC_eq_some g E coolingRate _ hn hE hL hR hexp
      (wellShaped_saRun g E initialTemp coolingRate k).1
      (saRun_temperature_pos g E initialTemp coolingRate hT hc k).ne.symm

/-- C17: under the input preconditions (`numTask ≥ 1`, every subject with
`weight > 0` and `0 ≤ minTime < plateau`, at least 7 non-negative day budgets,
`initialTemp > 0`, `0 < coolingRate < 1`) and with a C library whose `RAND_MAX` and
exponential are positive, the engine with every division, remainder and index
checked never fails: after any number of iterations it has met no zero divisor and
no out-of-bounds index, and it is in the same state as the unchecked engine; in
particular the temperature stays positive. -/
theorem engine_never_fails {α : Type} [LinearOrderedField α] (g : Globals α)
    (evaluationMatrix : Grid α) (initialTemp coolingRate : α) (hn : 1 ≤ g.numTask)
    (hE : ValidTable g.numTask evaluationMatrix) (hL : ValidLimits g.dailyTimeLimit)
    (hT : 0 < initialTemp) (hc : 0 < coolingRate) (_hc1 : coolingRate < 1)
    (hR : 0 < g.RAND_MAX) (hexp : ∀ x, 0 < g.exp x) (k : Nat) :
    saRunC g evaluationMatrix initialTemp coolingRate k
      = some (saRun g evaluationMatrix initialTemp coolingRate k) ∧
    0 < (saRun g evaluationMatrix initialTemp coolingRate k).temperature :=
  ⟨saRunC_eq_some g evaluationMatrix initialTemp coolingRate hn hE hL hR hexp hT hc k,
    saRun_temperature_pos g evaluationMatrix initialTemp coolingRate hT hc k⟩

theorem sampleMatrix_valid : ValidTable 2 sampleMatrix := by
  refine ⟨rfl, ?_⟩
  intro row hrow
  simp only [sampleMatrix, List.mem_cons, List.mem_singleton, List.not_mem_nil, or_false]
    at hrow
  rcases hrow with rfl | rfl
  · exact ⟨3 / 2, 1 / 2, 3 / 2, rfl, by norm_num, by norm_num, by norm_num⟩
  · exact ⟨2, 1, 5 / 2, rfl, by norm_num, by norm_num, by norm_num⟩

theorem sampleLimits_valid : ValidLimits sampleGlobals.dailyTimeLimit := by
  intro d hd
  unfold numDays at hd
  refine ⟨2, ?_, by norm_num⟩
  interval_cases d <;> rfl

theorem sampleExp_pos (x : ℚ) : 0 < sampleGlobals.exp x := by
  show 0 < (if x < 0 then 1 / (1 - x) else 1 + x)
  split_ifs with hx
  · exact div_pos one_pos (by linarith)
  · linarith [not_lt.mp hx]

/-- Witness of C17 on the sample run, after 200 iterations. -/
theorem engine_never_fails_witness :
    saRunC sampleGlobals sampleMatrix 1000 (999998 / 1000000) 200
      = some (saRun sampleGlobals sampleMatrix 1000 (999998 / 1000000) 200) ∧
    0 < (saRun sampleGlobals sampleMatrix 1000 (999998 / 1000000) 200).temperature :=
  engine_never_fails sampleGlobals sampleMatrix 1000 (999998 / 1000000) (by decide)
    sampleMatrix_valid sampleLimits_valid (by norm_num) (by norm_num) (by norm_num)
    (by decide) sampleExp_pos 200

/-! ### Rounding: where the exact claims fail on the `float` and `double` code -/

theorem float_model_exact_when_unrounded (g : Globals ℚ) (E plan : Grid ℚ) (n d : Nat)
    (limits : List ℚ) (k1 k2 t1 t T c : ℚ) (R r k : Nat) :
    uniformVariateF id R r = uniformVariate R r ∧
    activationF id k1 k2 t1 t = activation k1 k2 t1 t ∧
    getPlanEvaluationF id id g.exp E plan n = getPlanEvaluation g.exp E plan n ∧
    repairDayF id n limits plan d = repairDay n limits plan d ∧
    initPlanF id g = initPlan g ∧
    temperatureF id T c k = (saRun g E T c k).temperature := by
  refine ⟨rfl, rfl, rfl, rfl, rfl, ?_⟩
  induction k with
  | zero => rfl
  | succ k ih =>
    rw [saRun_succ, saStep_temperature, ← ih]
    rfl

theorem temperatureF_add (rnd : ℚ → ℚ) (T c : ℚ) (k m : Nat) :
    temperatureF rnd T c (k + m) = temperatureF rnd (temperatureF rnd T c k) c m := by
  induction m with
  | zero => rfl
  | succ m ih =>
    show rnd (temperatureF rnd T c (k + m) * c)
      = rnd (temperatureF rnd (temperatureF rnd T c k) c m * c)
    rw [ih]

theorem temperatureF_underflows : temperatureF binary64 1000 (1 / 2) 1085 = 0 := by
  have h1 : temperatureF binary64 1000 (1 / 2) 400 = 125 / 2 ^ 397 := by decide!
  have h2 : temperatureF binary64 (125 / 2 ^ 397) (1 / 2) 400 = 125 / 2 ^ 797 := by decide!
  have h3 : temperatureF binary64 (125 / 2 ^ 797) (1 / 2) 285 = 0 := by decide!
  have hsplit : (1085 : Nat) = 400 + 400 + 285 := rfl
  rw [hsplit, temperatureF_add, temperatureF_add, h1, h2, h3]

/-- Refutation of C1 as stated, in `float` arithmetic: three subjects, seven
budgets of 1, `RAND_MAX = 2147483647` and first draws 719885376, 1649760512,
596516672. The initial plan, which `simulatedAnnealing` returns when
`maxIterations = 0`, has day 0 rescaled to cells whose sum is 16777217/16777216,
above the budget 1; the `float` total of line 238 is above it as well. -/
theorem budget_feasibility_counterexample :
    (1 ≤ roundingGlobals.numTask ∧ roundingGlobals.dailyTimeLimit.length = numDays ∧
      ∀ x ∈ roundingGlobals.dailyTimeLimit, 0 ≤ x) ∧
    ¬ (dayTotal 3 (initPlanF binary32 roundingGlobals).1 0
        ≤ roundingGlobals.dailyTimeLimit.getD 0 0) ∧
    ¬ (dayTotalF binary32 3 (initPlanF binary32 roundingGlobals).1 0
        ≤ roundingGlobals.dailyTimeLimit.getD 0 0) :=
  ⟨⟨by decide, by decide, by simp [roundingGlobals]⟩, by decide!, by decide!⟩

/-- Refutation of C4 as stated, in `float` arithmetic: on the plan whose day 0 holds
0.33522275, 0.7682296 and 0.27777472, with budget 1, the first repair leaves a
`float` total above 1, so the second repair rescales every cell again. -/
theorem repairDay_idempotent_counterexample :
    (∀ row ∈ roundingPlan, ∀ x ∈ row, (0 : ℚ) ≤ x) ∧
    repairDayF binary32 3 [1, 1, 1, 1, 1, 1, 1]
        (repairDayF binary32 3 [1, 1, 1, 1, 1, 1, 1] roundingPlan 0) 0
      ≠ repairDayF binary32 3 [1, 1, 1, 1, 1, 1, 1] roundingPlan 0 :=
  ⟨by decide!, by decide!⟩

/-- Refutation of C5 as stated, at weight 1.5, `minTime = -1`, `plateau = 0`: the
hypothesis `minTime < plateau` holds, and line 117 divides `0 * 1.5` by the zero
plateau, so the result is not the weight (NaN in IEEE arithmetic). -/
theorem activation_at_plateau_counterexample :
    (-1 : ℚ) < 0 ∧ ¬ (activationC (3 / 2 : ℚ) (-1) 0 0 = some (3 / 2)) :=
  ⟨by norm_num, by decide!⟩

/-- Refutation of C9 as stated, in `float` arithmetic, at the header subject (1.5,
0.5, 1.5): from 2 to 3 hours the activation grows by 838861/8388608, not by
`(3 - 2) * (1.5 / 1.5) / 10`, whether the right-hand side is taken exactly or
evaluated in `float`. -/
theorem activation_marginal_rates_counterexample :
    ((0 : ℚ) < 3 / 2 ∧ (0 : ℚ) ≤ 1 / 2 ∧ (1 / 2 : ℚ) < 3 / 2 ∧ (2 : ℚ) < 3 ∧ (3 / 2 : ℚ) ≤ 2) ∧
    activationF binary32 (3 / 2) (1 / 2) (3 / 2) 3 - activationF binary32 (3 / 2) (1 / 2) (3 / 2) 2
      ≠ (3 - 2) * ((3 / 2) / (3 / 2)) / 10 ∧
    binary32 (activationF binary32 (3 / 2) (1 / 2) (3 / 2) 3
        - activationF binary32 (3 / 2) (1 / 2) (3 / 2) 2)
      ≠ binary32 (binary32 (binary32 (3 - 2) * binary32 ((3 / 2) / (3 / 2))) / 10) :=
  ⟨by norm_num, by decide!, by decide!⟩

/-- Refutation of C10 as stated, in `double` arithmetic: one subject (1.0, 0, 1.0)
with six hours a day has `task_sum = 42`, `1 + std::exp(-42.0)` rounds to `1`, and
`getPlanEvaluation` returns `21 = S * 2` with `S = 10.5`: the multiplier is exactly
2, not below 2. -/
theorem getPlanEvaluation_multiplier_counterexample :
    activationSum unitMatrix sixHoursPlan 1 = 21 / 2 ∧
    taskTotal unitMatrix sixHoursPlan 0 = 42 ∧
    getPlanEvaluationF binary32 binary64 stdExpAt42 unitMatrix sixHoursPlan 1
      = activationSum unitMatrix sixHoursPlan 1 * 2 :=
  ⟨by decide!, by decide!, by decide!⟩

/-- Refutation of C17 as stated, in `double` arithmetic: with `initialTemp = 1000` and
`coolingRate = 0.5`, inside the preconditions, the temperature of line 262 is
exactly `0` after 1085 iterations, and the acceptance test of line 252 then divides
`scoreDiff` by zero as soon as `scoreDiff > 0` fails. -/
theorem engine_zero_temperature_counterexample :
    ((0 : ℚ) < 1000 ∧ (0 : ℚ) < 1 / 2 ∧ (1 / 2 : ℚ) < 1) ∧
    temperatureF binary64 1000 (1 / 2) 1085 = 0 ∧
    acceptsC sampleGlobals (SAState.mk [] 0 [] 0 0 0) 0 = none :=
  ⟨by norm_num, temperatureF_underflows, by decide!⟩

/-- On glibc (`RAND_MAX = 2147483647`) the `float` variate is exactly `1` already for
values of `rand()` below `RAND_MAX`, since both integers round to `2 ^ 31`. -/
theorem uniformVariateF_one_below_RAND_MAX :
    uniformVariateF binary32 2147483647 2147483600 = 1 := by decide!

end Planning
